import Mathlib

/-
  Verification development for the tiered-interview progression engine
  (class `TieredInterviewAgent` in app.py).

  Modelling conventions:
  * Python dicts are association lists `List (String × _)`; genuine dicts
    always have unique keys, which theorems assume where it matters.
  * Python strings are `String`; the library string functions of this Lean
    version do not reduce in the kernel, so the Python built-ins used by the
    source (`split`, `startswith`, `replace`, `int`) are re-implemented below
    on character lists with the same behaviour.
  * A missing dict key read with `.get(k, d)` is modelled by the default `d`
    (`status` and question fields default to `""`, question lists to `[]`).
  * The profile tree is a nested dict whose non-dict values (the only thing
    `isinstance(-, dict)` can observe about them) collapse to a string leaf.
-/

/-- Python `s.split(sep)` for a one-character separator, on character lists:
splitting the empty string yields `[[]]`, adjacent separators yield empty
pieces. -/
def chSplit (sep : Char) : List Char → List (List Char)
  | [] => [[]]
  | c :: cs =>
    let r := chSplit sep cs
    if c = sep then [] :: r
    else match r with
      | [] => [[c]]
      | h :: t => (c :: h) :: t

/-- Python `s.split(sep)` (one-character separator). -/
def pySplit (s : String) (sep : Char) : List String :=
  (chSplit sep s.data).map (fun cs => ⟨cs⟩)

/-- Python `s.startswith(p)`, on character lists. -/
def chStarts : List Char → List Char → Bool
  | [], _ => true
  | _ :: _, [] => false
  | p :: ps, c :: cs => p = c && chStarts ps cs

/-- Python `k.startswith('tier')`. -/
def pyStartsWithTier (s : String) : Bool := chStarts "tier".data s.data

/-- Python `k.replace('tier', '')`: every occurrence of `tier` removed. -/
def stripTier : List Char → List Char
  | 't' :: 'i' :: 'e' :: 'r' :: rest => stripTier rest
  | c :: cs => c :: stripTier cs
  | [] => []

/-- Decimal-digit accumulator for Python `int(...)`; `none` when no digit has
been seen or a non-digit appears. -/
def chDigits? : List Char → Option Nat → Option Nat
  | [], acc => acc
  | c :: cs, acc =>
    if c.isDigit then chDigits? cs (some ((acc.getD 0) * 10 + (c.toNat - 48)))
    else none

/-- Python `int(s)`: optional sign then decimal digits (`none` models the
`ValueError`; exotic accepted forms such as surrounding whitespace or digit
underscores never occur in tier keys and are not modelled). -/
def pyInt? (s : String) : Option Int :=
  match s.data with
  | '-' :: rest => (chDigits? rest none).map (fun n => -(n : Int))
  | '+' :: rest => (chDigits? rest none).map (fun n => (n : Int))
  | l => (chDigits? l none).map (fun n => (n : Int))

/-- Python dict read `d.get(k)` on an association list. -/
def alGet : List (String × α) → String → Option α
  | [], _ => none
  | (k2, v) :: rest, k => if k2 = k then some v else alGet rest k

/-- Python dict write `d[k] = v`: overwrite the entry in place, else append. -/
def alSet : List (String × α) → String → α → List (String × α)
  | [], k, v => [(k, v)]
  | (k2, v2) :: rest, k, v =>
    if k2 = k then (k, v) :: rest else (k2, v2) :: alSet rest k v

/-- A question document: display text, dotted `field` path into the profile
tree, and the `qest` flag (`"pending"` / `"answered"`; `""` models a missing
key). -/
structure Question where
  question : String
  field : String
  qest : String
deriving DecidableEq

/-- A tier document: `status` (`""` models unset) and the ordered question
sequence. -/
structure Tier where
  status : String
  questions : List Question
deriving DecidableEq

/-- A question-set document: dict from tier key to tier. -/
abbrev QSet := List (String × Tier)

/-- Profile-tree values: a nested dict, or a non-dict leaf (every Python
non-dict value collapses to `.str`, which is all `isinstance(-, dict)`
observes). -/
inductive PVal where
  | str (s : String)
  | obj (m : List (String × PVal))

/-- The engine state: the three in-memory documents plus the derived position
(`__init__` fields of `TieredInterviewAgent`). -/
structure Agent where
  current_tier_idx : Nat
  current_phase : String
  current_q_idx : Nat
  tier_keys : List String
  general_questions : QSet
  category_questions : QSet
  profile_structure : PVal

/-- Python `d1 == d2` on dicts: same keys with equal values. The left disjunct
makes the test definitionally reflexive; for genuine dicts (unique keys) both
disjuncts agree with Python's value equality. -/
def qsetEq (a b : QSet) : Bool :=
  a == b ||
    ((a.all fun kv => alGet b kv.1 == some kv.2) &&
     (b.all fun kv => alGet a kv.1 == some kv.2))

/-- Method `get_current_tier_key` (app.py:98). -/
def get_current_tier_key (a : Agent) : Option String :=
  a.tier_keys[a.current_tier_idx]?

/-- Python `dataset.get(tier_key, {}).get('questions', [])`. -/
def tierQuestions (ds : QSet) (tk : String) : List Question :=
  ((alGet ds tk).map Tier.questions).getD []

/-- Python `dataset.get(tier_key, {}).get('status', '')`. -/
def tierStatus (ds : QSet) (tk : String) : String :=
  ((alGet ds tk).map Tier.status).getD ""

/-- Method `get_pending_questions` (app.py:105). An empty dataset, a falsy
(empty) tier key or an absent tier key give `[]`; the status gate fires when
the dataset equals the general set by value (Python `==`). -/
def get_pending_questions (a : Agent) (dataset : QSet) (tk : String) :
    List Question :=
  if dataset.isEmpty ∨ tk = "" ∨ (alGet dataset tk).isNone then []
  else
    let st := tierStatus dataset tk
    if qsetEq dataset a.general_questions ∧ st ≠ "in_process" ∧ st ≠ "" then []
    else (tierQuestions dataset tk).filter (fun q => q.qest == "pending")

/-- The record returned by `get_current_question`. -/
structure CurrentQ where
  question : String
  field : String
  phase : String
  tier : String
deriving DecidableEq

/-- Method `get_current_question` (app.py:126). -/
def get_current_question (a : Agent) : Option CurrentQ :=
  match get_current_tier_key a with
  | none => none
  | some tk =>
    if tk = "" then none
    else if a.current_phase = "general" then
      match (get_pending_questions a a.general_questions tk)[a.current_q_idx]? with
      | some qd => some ⟨qd.question, qd.field, "general", tk⟩
      | none => none
    else if a.current_phase = "category" then
      match (get_pending_questions a a.category_questions tk)[a.current_q_idx]? with
      | some qd => some ⟨qd.question, qd.field, "category", tk⟩
      | none => none
    else none

/-- The navigation loop of `update_profile_structure` (app.py:244), rebuilt
recursively. Python mutates through aliases and catches TypeError: meeting a
non-dict while navigating, or at the final key, leaves the whole tree
unmutated (analysed case by case from the source), which the unchanged return
value models exactly. -/
def updPath (answer : String) : List String → PVal → PVal
  | [], cur => cur
  | k :: rest, cur =>
    match cur with
    | PVal.str s => PVal.str s
    | PVal.obj m =>
      match rest with
      | [] =>
        match alGet m k with
        | some (PVal.obj sub) =>
          PVal.obj (alSet m k (PVal.obj (alSet sub "value" (PVal.str answer))))
        | some (PVal.str _) => PVal.obj m
        | none => PVal.obj (alSet m k (PVal.obj [("value", PVal.str answer)]))
      | _ :: _ =>
        match alGet m k with
        | some child => PVal.obj (alSet m k (updPath answer rest child))
        | none => PVal.obj (alSet m k (updPath answer rest (PVal.obj [])))

/-- Method `update_profile_structure` (app.py:238). -/
def update_profile_structure (a : Agent) (field_path answer : String) : Agent :=
  if field_path = "" then a
  else
    {a with profile_structure :=
      updPath answer (pySplit field_path '.') a.profile_structure}

/-- The mark-answered loop of `submit_answer` (app.py:220): the first question
whose text matches is set to `answered`, then the loop breaks. -/
def markFirst (text : String) : List Question → List Question
  | [] => []
  | q :: qs =>
    if q.question = text then {q with qest := "answered"} :: qs
    else q :: markFirst text qs

/-- Marking inside a dataset: fetch the tier (a missing tier key makes the
loop run on `[]`, a no-op) and update its question list in place. -/
def markAnswered (ds : QSet) (tk text : String) : QSet :=
  match alGet ds tk with
  | some t => alSet ds tk {t with questions := markFirst text t.questions}
  | none => ds

/-- Python `if k in qs: qs[k]['status'] = s`. -/
def setStatus (qs : QSet) (k s : String) : QSet :=
  match alGet qs k with
  | some t => alSet qs k {t with status := s}
  | none => qs

/-- Method `complete_current_tier` (app.py:302): sets `completed` in both sets
where the tier key is present. -/
def complete_current_tier (a : Agent) : Agent :=
  match get_current_tier_key a with
  | some tk =>
    if tk = "" then a
    else
      {a with
        general_questions := setStatus a.general_questions tk "completed",
        category_questions := setStatus a.category_questions tk "completed"}
  | none => a

/-- Method `advance_to_next_tier` (app.py:315). The new current tier's general
status is set to `in_process` unconditionally — even when it was `completed`. -/
def advance_to_next_tier (a : Agent) : Agent :=
  if a.current_tier_idx + 1 < a.tier_keys.length then
    let a1 := {a with current_tier_idx := a.current_tier_idx + 1,
                      current_phase := "general", current_q_idx := 0}
    match get_current_tier_key a1 with
    | some ntk =>
      if ntk ≠ "" ∧ (alGet a1.general_questions ntk).isSome then
        {a1 with general_questions := setStatus a1.general_questions ntk "in_process"}
      else a1
    | none => a1
  else {a with current_tier_idx := a.tier_keys.length}

/-- Method `advance_to_next` (app.py:270). The pending lists are recomputed
here, after `submit_answer` already marked the current question answered. -/
def advance_to_next (a : Agent) : Agent :=
  match get_current_tier_key a with
  | none => a
  | some tk =>
    if tk = "" then a
    else if a.current_phase = "general" then
      let pending := get_pending_questions a a.general_questions tk
      if pending ≠ [] ∧ a.current_q_idx + 1 < pending.length then
        {a with current_q_idx := a.current_q_idx + 1}
      else
        let a1 := {a with current_phase := "category", current_q_idx := 0}
        if get_pending_questions a1 a1.category_questions tk = [] then
          advance_to_next_tier (complete_current_tier a1)
        else a1
    else if a.current_phase = "category" then
      let pending := get_pending_questions a a.category_questions tk
      if pending ≠ [] ∧ a.current_q_idx + 1 < pending.length then
        {a with current_q_idx := a.current_q_idx + 1}
      else advance_to_next_tier (complete_current_tier a)
    else a

/-- The dataset `submit_answer` picks for the current phase (app.py:207). -/
def phaseDataset (a : Agent) : QSet :=
  if a.current_phase = "general" then a.general_questions
  else a.category_questions

/-- The dataset write-back of `submit_answer` after the mark-answered loop
(the Python code mutates the picked dataset through the alias). -/
def markPhase (a : Agent) (tk text : String) : Agent :=
  if a.current_phase = "general"
  then {a with general_questions := markAnswered a.general_questions tk text}
  else {a with category_questions := markAnswered a.category_questions tk text}

/-- Method `submit_answer` (app.py:196): returns the Python result together
with the mutated agent. -/
def submit_answer (a : Agent) (answer : String) : Bool × Agent :=
  match get_current_tier_key a with
  | none => (false, a)
  | some tk =>
    if tk = "" then (false, a)
    else
      match get_current_question a with
      | none => (false, a)
      | some cq =>
        match (get_pending_questions a (phaseDataset a) tk)[a.current_q_idx]? with
        | none => (false, a)
        | some qtu =>
          (true, advance_to_next
            (update_profile_structure (markPhase a tk qtu.question) cq.field answer))

/-- The scan loop of `pick_up_where_left_off` (app.py:83): skip `completed`
tiers, stop at the first other tier, switching its status to `in_process`
when it was not already that. Returns the found index (the list length when
every tier is completed) and the possibly-mutated general set. (Python would
raise KeyError when the found key is absent from the set; unreachable, since
`tier_keys` is derived from the set's own keys — `setStatus` no-ops there.) -/
def pickUpAux (gen : QSet) : List String → Nat × QSet
  | [] => (0, gen)
  | k :: rest =>
    if tierStatus gen k = "completed" then
      let r := pickUpAux gen rest
      (r.1 + 1, r.2)
    else
      (0, if tierStatus gen k ≠ "in_process" then setStatus gen k "in_process" else gen)

/-- Method `pick_up_where_left_off` (app.py:78). -/
def pick_up_where_left_off (a : Agent) : Agent :=
  let r := pickUpAux a.general_questions a.tier_keys
  {a with current_tier_idx := r.1, general_questions := r.2}

/-- Python `int(k.replace('tier', ''))`, the sort key of `load_data`. -/
def tierRank? (k : String) : Option Int := pyInt? ⟨stripTier k.data⟩

/-- Stable ascending insertion by rank: an element is placed before the first
existing element of rank at least its own, so elements already present (later
in the original order) stay behind equal ranks, as Python's stable sort does. -/
def insertByRank (k : String) : List String → List String
  | [] => [k]
  | x :: xs =>
    if (tierRank? k).getD 0 ≤ (tierRank? x).getD 0 then k :: x :: xs
    else x :: insertByRank k xs

/-- Python `sorted(ks, key=lambda x: int(x.replace('tier', '')))`. -/
def sortByRank (l : List String) : List String := l.foldr insertByRank []

/-- Tier-key derivation in `load_data` (app.py:59): keys starting with `tier`,
sorted by numeric rank; `none` models the ValueError raised by `int` on an
unparsable rank, which sends `load_data` to its all-empty fallback. -/
def deriveTierKeys (gen : QSet) : Option (List String) :=
  let ks := (gen.map Prod.fst).filter (fun k => pyStartsWithTier k)
  if ks.all (fun k => (tierRank? k).isSome) then some (sortByRank ks) else none

/-- The all-empty fallback state of the `except` branch of `load_data`. -/
def emptyAgent : Agent :=
  ⟨0, "general", 0, [], [], [], PVal.obj []⟩

/-- Method `load_data` (app.py:39) together with the `__init__` field
defaults, taking the three fetched documents as inputs (`none` models a
document absent from the store, which falls back to `{}`). -/
def load_data (genDoc catDoc : Option QSet) (profDoc : Option PVal) : Agent :=
  let gen := genDoc.getD []
  let cat := catDoc.getD []
  let prof := profDoc.getD (PVal.obj [])
  let base : Agent := ⟨0, "general", 0, [], gen, cat, prof⟩
  if gen.isEmpty then pick_up_where_left_off base
  else
    match deriveTierKeys gen with
    | some tks => pick_up_where_left_off {base with tier_keys := tks}
    | none => pick_up_where_left_off emptyAgent

/-- Method `is_complete` (app.py:331). -/
def is_complete (a : Agent) : Bool := a.tier_keys.length ≤ a.current_tier_idx

/-- Engine states reachable through the public lifecycle: construction from
three persisted documents (real dicts, so the general document's keys are
unique), followed by any sequence of `submit_answer` calls. -/
inductive Reachable : Agent → Prop where
  | load (genDoc catDoc : Option QSet) (profDoc : Option PVal)
      (hnd : ((genDoc.getD []).map Prod.fst).Nodup) :
      Reachable (load_data genDoc catDoc profDoc)
  | step (a : Agent) (ans : String) :
      Reachable a → Reachable (submit_answer a ans).2

/-- Descend the profile tree along a key path. -/
def pvGetPath : PVal → List String → Option PVal
  | p, [] => some p
  | PVal.obj m, k :: rest =>
    match alGet m k with
    | some c => pvGetPath c rest
    | none => none
  | PVal.str _, _ :: _ => none

/-- The `value` entry of the node at a key path (what `P3` talks about). -/
def valueAtPath (p : PVal) (ks : List String) : Option PVal :=
  match pvGetPath p ks with
  | some (PVal.obj m) => alGet m "value"
  | _ => none

/-- Walk a key path through existing nodes checking that every met entry is a
dict (missing entries are fine: the write path creates them as fresh dicts). -/
def pathWritable : List String → PVal → Bool
  | [], _ => false
  | k :: rest, PVal.obj m =>
    match rest, alGet m k with
    | [], some (PVal.obj _) => true
    | [], some (PVal.str _) => false
    | [], none => true
    | _ :: _, some c => pathWritable rest c
    | _ :: _, none => true
  | _ :: _, PVal.str _ => false

/-- Structural soundness of an engine state: distinct, non-falsy tier keys
all present in the general set, and every tier strictly before the current
one already `completed` in the general set. Loading establishes it (the
resumption scan skips exactly the completed prefix) and `submit_answer`
preserves it. -/
def EngineInv (a : Agent) : Prop :=
  a.tier_keys.Nodup ∧
  (∀ k ∈ a.tier_keys, (alGet a.general_questions k).isSome) ∧
  (∀ k ∈ a.tier_keys, k ≠ "") ∧
  (∀ j k2, j < a.current_tier_idx → a.tier_keys[j]? = some k2 →
    tierStatus a.general_questions k2 = "completed")

/- ===================== concrete fixtures ===================== -/

/-- Spec §8 example, question 1 of `tier1`. -/
def exQName : Question := ⟨"What is your name?", "name", "pending"⟩

/-- Spec §8 example, question 2 of `tier1`. -/
def exQAge : Question := ⟨"How old are you?", "age", "pending"⟩

/-- Spec §8 example, the only question of `tier2`. -/
def exQHobby : Question := ⟨"What is your hobby?", "hobby", "pending"⟩

/-- Spec §8 example: the persisted general question set. -/
def exGen : QSet :=
  [("tier1", ⟨"in_process", [exQName, exQAge]⟩), ("tier2", ⟨"", [exQHobby]⟩)]

/-- Spec §8 example: freshly loaded engine (category set has no tier entry,
profile starts empty). -/
def exS0 : Agent := load_data (some exGen) (some []) (some (PVal.obj []))

/-- A state whose current question writes to `a.b` while the profile already
holds a plain string at `a.b`. -/
def exBadLeaf : Agent :=
  ⟨0, "general", 0, ["tier1"],
   [("tier1", ⟨"in_process", [⟨"Q1?", "a.b", "pending"⟩]⟩)],
   [],
   PVal.obj [("a", PVal.obj [("b", PVal.str "old")])]⟩

/-- A state whose category set is value-equal to the general set; the shared
tier is `completed` yet still has a pending question. -/
def exTwin : Agent :=
  ⟨0, "general", 0, ["tier1"],
   [("tier1", ⟨"completed", [⟨"Q1?", "f", "pending"⟩]⟩)],
   [("tier1", ⟨"completed", [⟨"Q1?", "f", "pending"⟩]⟩)],
   PVal.obj []⟩

/-- Persisted documents where a later tier is already `completed` while an
earlier one is still open. -/
def exGenLate : QSet :=
  [("tier1", ⟨"", [⟨"Q1?", "f", "pending"⟩]⟩), ("tier2", ⟨"completed", []⟩)]

/-- Engine loaded from `exGenLate`. -/
def exSLate : Agent := load_data (some exGenLate) (some []) (some (PVal.obj []))

/-- General set for the empty-category skip witness: one pending question in
`tier1`, a second tier to advance into. -/
def exGenSkip : QSet :=
  [("tier1", ⟨"in_process", [exQName]⟩), ("tier2", ⟨"", [exQHobby]⟩)]

/-- Engine loaded from `exGenSkip` with an empty category set. -/
def exSSkip : Agent := load_data (some exGenSkip) (some []) (some (PVal.obj []))

/- ===================== theorems ===================== -/

/-- Claim C1 (recorded as a code bug): evaluation of the spec §8 scenario.
Loading gives position `(tier1, general, 0)` and `submit_answer "Alice"`
writes `name.value = "Alice"` and marks question 1 answered, as claimed — but
the resulting position is `(tier2, general, 0)`, not `(tier1, general, 1)`:
`advance_to_next` compares `current_q_idx + 1` with the pending list it
recomputes after the marking, so `tier1` is completed immediately and the age
question is left `pending` forever, contradicting the claimed continuation. -/
theorem C1_scenario_evaluation :
    (exS0.current_tier_idx = 0 ∧ exS0.current_phase = "general" ∧
       exS0.current_q_idx = 0 ∧ get_current_tier_key exS0 = some "tier1") ∧
    (submit_answer exS0 "Alice").1 = true ∧
    valueAtPath (submit_answer exS0 "Alice").2.profile_structure ["name"]
      = some (PVal.str "Alice") ∧
    (tierQuestions (submit_answer exS0 "Alice").2.general_questions "tier1").map
        Question.qest = ["answered", "pending"] ∧
    (submit_answer exS0 "Alice").2.current_tier_idx = 1 ∧
    (submit_answer exS0 "Alice").2.current_phase = "general" ∧
    (submit_answer exS0 "Alice").2.current_q_idx = 0 ∧
    tierStatus (submit_answer exS0 "Alice").2.general_questions "tier1"
      = "completed" ∧
    tierStatus (submit_answer exS0 "Alice").2.general_questions "tier2"
      = "in_process" :=
  ⟨⟨rfl, rfl, rfl, rfl⟩, rfl, rfl, rfl, rfl, rfl, rfl, rfl, rfl⟩

/-- Claim C7: when no current tier or no current question is resolvable,
`submit_answer` reports failure without raising and leaves the whole engine
state — both question sets, the profile tree and the derived position —
unchanged. -/
theorem C7_submit_failure_is_noop (a : Agent) (ans : String)
    (h : get_current_tier_key a = none ∨ get_current_question a = none) :
    submit_answer a ans = (false, a) := by
  unfold submit_answer
  cases htk : get_current_tier_key a with
  | none => rfl
  | some tk =>
    have hq : get_current_question a = none := by
      rcases h with h | h
      · rw [htk] at h; cases h
      · exact h
    by_cases he : tk = ""
    · simp [he]
    · simp [he, hq]

/-- Witness for C7 at a concrete input: the all-empty fallback state has no
current tier, and submitting there is a failing no-op. -/
theorem C7_witness : submit_answer emptyAgent "x" = (false, emptyAgent) :=
  C7_submit_failure_is_noop emptyAgent "x" (Or.inl rfl)

/-- Claim C8: with an empty general question set (for instance the fallback of
a load failure) the engine derives no tier keys, the derived index 0 equals
the tier count, the interview reports complete at once, and no question is
ever offered. -/
theorem C8_empty_general_immediately_complete (genDoc catDoc : Option QSet)
    (profDoc : Option PVal) (h : genDoc.getD [] = []) :
    (load_data genDoc catDoc profDoc).tier_keys = [] ∧
    (load_data genDoc catDoc profDoc).current_tier_idx = 0 ∧
    (load_data genDoc catDoc profDoc).tier_keys.length = 0 ∧
    is_complete (load_data genDoc catDoc profDoc) = true ∧
    get_current_question (load_data genDoc catDoc profDoc) = none := by
  cases genDoc with
  | none => exact ⟨rfl, rfl, rfl, rfl, rfl⟩
  | some g =>
    have hg : g = [] := by simpa using h
    subst hg
    exact ⟨rfl, rfl, rfl, rfl, rfl⟩

/-- Witness for C8 at a concrete input: all three documents absent. -/
theorem C8_witness :
    (load_data none none none).tier_keys = [] ∧
    (load_data none none none).current_tier_idx = 0 ∧
    (load_data none none none).tier_keys.length = 0 ∧
    is_complete (load_data none none none) = true ∧
    get_current_question (load_data none none none) = none :=
  C8_empty_general_immediately_complete none none none rfl

/- ===================== association-list lemmas ===================== -/

theorem alGet_alSet_self (m : List (String × α)) (k : String) (v : α) :
    alGet (alSet m k v) k = some v := by
  induction m with
  | nil => simp [alSet, alGet]
  | cons h t ih =>
    obtain ⟨k2, v2⟩ := h
    by_cases hk : k2 = k
    · simp [alSet, hk, alGet]
    · simp [alSet, hk, alGet, ih]

theorem alGet_alSet_ne (m : List (String × α)) (k k2 : String) (v : α)
    (h : k2 ≠ k) : alGet (alSet m k v) k2 = alGet m k2 := by
  have hk2k : ¬k = k2 := fun hh => h hh.symm
  induction m with
  | nil => simp [alSet, alGet, hk2k]
  | cons hd t ih =>
    obtain ⟨k3, v3⟩ := hd
    by_cases hk : k3 = k
    · subst hk
      simp only [alSet, if_pos rfl, alGet, if_neg hk2k]
    · simp only [alSet, if_neg hk, alGet]
      by_cases hk2 : k3 = k2
      · simp [hk2]
      · simp [hk2, ih]

theorem alSet_keys_of_mem (m : List (String × α)) (k : String) (v : α)
    (h : (alGet m k).isSome) :
    (alSet m k v).map Prod.fst = m.map Prod.fst := by
  induction m with
  | nil => simp [alGet] at h
  | cons hd t ih =>
    obtain ⟨k2, v2⟩ := hd
    by_cases hk : k2 = k
    · simp [alSet, hk]
    · simp only [alGet, if_neg hk] at h
      simp [alSet, hk, ih h]

theorem alSet_same (m : List (String × α)) (k : String) (v : α)
    (h : alGet m k = some v) : alSet m k v = m := by
  induction m with
  | nil => simp [alGet] at h
  | cons hd t ih =>
    obtain ⟨k2, v2⟩ := hd
    by_cases hk : k2 = k
    · simp only [alGet, if_pos hk, Option.some.injEq] at h
      simp [alSet, hk, h]
    · simp only [alGet, if_neg hk] at h
      simp [alSet, hk, ih h]

theorem alGet_isSome_iff_mem (m : List (String × α)) (k : String) :
    (alGet m k).isSome ↔ k ∈ m.map Prod.fst := by
  induction m with
  | nil => simp [alGet]
  | cons hd t ih =>
    obtain ⟨k2, v2⟩ := hd
    by_cases hk : k2 = k
    · subst hk
      simp [alGet]
    · simp only [alGet, if_neg hk, List.map_cons, List.mem_cons]
      rw [ih]
      constructor
      · exact fun h => Or.inr h
      · rintro (h | h)
        · exact absurd h.symm hk
        · exact h

/- ===================== setStatus / markAnswered lemmas ===================== -/

theorem setStatus_absent (qs : QSet) (k s : String) (h : alGet qs k = none) :
    setStatus qs k s = qs := by
  unfold setStatus
  rw [h]

theorem setStatus_get_self (qs : QSet) (k s : String) (t : Tier)
    (h : alGet qs k = some t) :
    alGet (setStatus qs k s) k = some {t with status := s} := by
  unfold setStatus
  rw [h]
  exact alGet_alSet_self qs k _

theorem setStatus_get_ne (qs : QSet) (k s k2 : String) (h : k2 ≠ k) :
    alGet (setStatus qs k s) k2 = alGet qs k2 := by
  unfold setStatus
  cases hg : alGet qs k with
  | none => rfl
  | some t => exact alGet_alSet_ne qs k k2 _ h

theorem setStatus_keys (qs : QSet) (k s : String) :
    (setStatus qs k s).map Prod.fst = qs.map Prod.fst := by
  unfold setStatus
  cases hg : alGet qs k with
  | none => rfl
  | some t =>
    exact alSet_keys_of_mem qs k _ (by simp [hg])

theorem tierStatus_setStatus_self (qs : QSet) (k s : String)
    (h : (alGet qs k).isSome) :
    tierStatus (setStatus qs k s) k = s := by
  obtain ⟨t, ht⟩ := Option.isSome_iff_exists.mp h
  rw [tierStatus, setStatus_get_self qs k s t ht]
  rfl

theorem tierStatus_setStatus_ne (qs : QSet) (k s k2 : String) (h : k2 ≠ k) :
    tierStatus (setStatus qs k s) k2 = tierStatus qs k2 := by
  rw [tierStatus, setStatus_get_ne qs k s k2 h, tierStatus]

theorem tierQuestions_setStatus (qs : QSet) (k s k2 : String) :
    tierQuestions (setStatus qs k s) k2 = tierQuestions qs k2 := by
  by_cases h : k2 = k
  · subst h
    cases hg : alGet qs k2 with
    | none => rw [setStatus_absent qs k2 s hg]
    | some t => simp [tierQuestions, setStatus_get_self qs k2 s t hg, hg]
  · rw [tierQuestions, setStatus_get_ne qs k s k2 h, tierQuestions]

theorem markAnswered_absent (ds : QSet) (tk text : String)
    (h : alGet ds tk = none) : markAnswered ds tk text = ds := by
  unfold markAnswered
  rw [h]

theorem markAnswered_get_self (ds : QSet) (tk text : String) (t : Tier)
    (h : alGet ds tk = some t) :
    alGet (markAnswered ds tk text) tk
      = some {t with questions := markFirst text t.questions} := by
  unfold markAnswered
  rw [h]
  exact alGet_alSet_self ds tk _

theorem markAnswered_get_ne (ds : QSet) (tk text k2 : String) (h : k2 ≠ tk) :
    alGet (markAnswered ds tk text) k2 = alGet ds k2 := by
  unfold markAnswered
  cases hg : alGet ds tk with
  | none => rfl
  | some t => exact alGet_alSet_ne ds tk k2 _ h

theorem markAnswered_keys (ds : QSet) (tk text : String) :
    (markAnswered ds tk text).map Prod.fst = ds.map Prod.fst := by
  unfold markAnswered
  cases hg : alGet ds tk with
  | none => rfl
  | some t => exact alSet_keys_of_mem ds tk _ (by simp [hg])

theorem tierStatus_markAnswered (ds : QSet) (tk text k2 : String) :
    tierStatus (markAnswered ds tk text) k2 = tierStatus ds k2 := by
  by_cases h : k2 = tk
  · subst h
    cases hg : alGet ds k2 with
    | none => rw [markAnswered_absent ds k2 text hg]
    | some t => simp [tierStatus, markAnswered_get_self ds k2 text t hg, hg]
  · rw [tierStatus, markAnswered_get_ne ds tk text k2 h, tierStatus]

theorem tierQuestions_markAnswered_self (ds : QSet) (tk text : String) :
    tierQuestions (markAnswered ds tk text) tk
      = markFirst text (tierQuestions ds tk) := by
  cases hg : alGet ds tk with
  | none =>
    rw [markAnswered_absent ds tk text hg, tierQuestions, hg]
    rfl
  | some t => simp [tierQuestions, markAnswered_get_self ds tk text t hg, hg]

/- ===================== markFirst lemmas ===================== -/

theorem markFirst_marks (text : String) (qs : List Question)
    (h : qs.countP (fun q => q.question == text) ≤ 1) :
    ∀ q2 ∈ markFirst text qs, q2.question = text → q2.qest = "answered" := by
  induction qs with
  | nil => intro q2 hq2; simp [markFirst] at hq2
  | cons q t ih =>
    by_cases hm : q.question = text
    · intro q2 hq2 hq2t
      simp only [markFirst, if_pos hm] at hq2
      rcases List.mem_cons.mp hq2 with h1 | h1
      · subst h1; rfl
      · exfalso
        have hcnt : t.countP (fun q => q.question == text) = 0 := by
          rw [List.countP_cons_of_pos] at h
          · omega
          · simpa using hm
        have hnone := List.countP_eq_zero.mp hcnt q2 h1
        simp [hq2t] at hnone
    · intro q2 hq2 hq2t
      simp only [markFirst, if_neg hm] at hq2
      rcases List.mem_cons.mp hq2 with h1 | h1
      · subst h1; exact absurd hq2t hm
      · refine ih ?_ q2 h1 hq2t
        rw [List.countP_cons_of_neg] at h
        · exact h
        · simpa using hm

theorem markFirst_filter_length_le (text : String) (qs : List Question) :
    ((markFirst text qs).filter (fun q => q.qest == "pending")).length ≤
      (qs.filter (fun q => q.qest == "pending")).length := by
  induction qs with
  | nil => simp [markFirst]
  | cons q t ih =>
    by_cases hm : q.question = text
    · simp only [markFirst, if_pos hm, List.filter_cons]
      have h1 : (({q with qest := "answered"} : Question).qest == "pending") = false := rfl
      rw [h1]
      by_cases hp : (q.qest == "pending") = true
      · rw [if_pos hp]
        simp only [Bool.false_eq_true, if_false, List.length_cons]
        exact Nat.le_succ _
      · rw [if_neg hp]
        simp only [Bool.false_eq_true, if_false]
        exact Nat.le_refl _
    · simp only [markFirst, if_neg hm, List.filter_cons]
      by_cases hp : (q.qest == "pending") = true
      · rw [if_pos hp, if_pos hp]
        simpa using ih
      · rw [if_neg hp, if_neg hp]
        exact ih

/- ===================== profile-path lemmas ===================== -/

theorem valueAtPath_cons (m : List (String × PVal)) (k : String)
    (rest : List String) (c : PVal) (h : alGet m k = some c) :
    valueAtPath (PVal.obj m) (k :: rest) = valueAtPath c rest := by
  simp [valueAtPath, pvGetPath, h]

theorem pathWritable_obj_nil (rest : List String) (h : rest ≠ []) :
    pathWritable rest (PVal.obj []) = true := by
  cases rest with
  | nil => exact absurd rfl h
  | cons r rs =>
    cases rs with
    | nil => rfl
    | cons r2 rs2 => rfl

theorem updPath_writes (answer : String) (ks : List String) :
    ∀ p : PVal, ks ≠ [] → pathWritable ks p = true →
      valueAtPath (updPath answer ks p) ks = some (PVal.str answer) := by
  induction ks with
  | nil => intro p h _; exact absurd rfl h
  | cons k rest ih =>
    intro p _ hw
    cases p with
    | str s => simp [pathWritable] at hw
    | obj m =>
      cases rest with
      | nil =>
        cases hg : alGet m k with
        | none =>
          simp only [updPath, hg]
          rw [valueAtPath_cons _ k [] _ (alGet_alSet_self m k _)]
          simp [valueAtPath, pvGetPath, alGet]
        | some c =>
          cases c with
          | str s2 => simp [pathWritable, hg] at hw
          | obj sub =>
            simp only [updPath, hg]
            rw [valueAtPath_cons _ k [] _ (alGet_alSet_self m k _)]
            simp [valueAtPath, pvGetPath, alGet_alSet_self]
      | cons r rs =>
        cases hg : alGet m k with
        | none =>
          simp only [updPath, hg]
          rw [valueAtPath_cons _ k (r :: rs) _ (alGet_alSet_self m k _)]
          exact ih (PVal.obj []) (by simp) (pathWritable_obj_nil _ (by simp))
        | some c =>
          have hw2 : pathWritable (r :: rs) c = true := by
            simpa [pathWritable, hg] using hw
          simp only [updPath, hg]
          rw [valueAtPath_cons _ k (r :: rs) _ (alGet_alSet_self m k _)]
          exact ih c (by simp) hw2

theorem updPath_noop (answer : String) (ks : List String) :
    ∀ (p : PVal) (s : String), pvGetPath p ks = some (PVal.str s) → ks ≠ [] →
      updPath answer ks p = p := by
  induction ks with
  | nil => intro p s h hne; exact absurd rfl hne
  | cons k rest ih =>
    intro p s h _
    cases p with
    | str s2 => simp [pvGetPath] at h
    | obj m =>
      cases hg : alGet m k with
      | none => simp [pvGetPath, hg] at h
      | some c =>
        have hc : pvGetPath c rest = some (PVal.str s) := by
          simpa [pvGetPath, hg] using h
        cases rest with
        | nil =>
          have hcs : c = PVal.str s := by simpa [pvGetPath] using hc
          subst hcs
          simp [updPath, hg]
        | cons r rs =>
          cases c with
          | str s3 => simp [pvGetPath] at hc
          | obj m2 =>
            have hrec : updPath answer (r :: rs) (PVal.obj m2) = PVal.obj m2 :=
              ih _ s hc (by simp)
            have houter : updPath answer (k :: r :: rs) (PVal.obj m)
                = PVal.obj (alSet m k (updPath answer (r :: rs) (PVal.obj m2))) := by
              rw [updPath.eq_def]
              simp only [hg]
            rw [houter, hrec, alSet_same m k _ hg]

/- ===================== operation field lemmas ===================== -/

theorem update_profile_fields (a : Agent) (fp ans : String) :
    (update_profile_structure a fp ans).current_tier_idx = a.current_tier_idx ∧
    (update_profile_structure a fp ans).current_phase = a.current_phase ∧
    (update_profile_structure a fp ans).current_q_idx = a.current_q_idx ∧
    (update_profile_structure a fp ans).tier_keys = a.tier_keys ∧
    (update_profile_structure a fp ans).general_questions = a.general_questions ∧
    (update_profile_structure a fp ans).category_questions = a.category_questions := by
  unfold update_profile_structure
  split <;> exact ⟨rfl, rfl, rfl, rfl, rfl, rfl⟩

theorem update_profile_profile (a : Agent) (fp ans : String) :
    (update_profile_structure a fp ans).profile_structure =
      if fp = "" then a.profile_structure
      else updPath ans (pySplit fp '.') a.profile_structure := by
  unfold update_profile_structure
  split <;> rfl

theorem markPhase_fields (a : Agent) (tk text : String) :
    (markPhase a tk text).current_tier_idx = a.current_tier_idx ∧
    (markPhase a tk text).current_phase = a.current_phase ∧
    (markPhase a tk text).current_q_idx = a.current_q_idx ∧
    (markPhase a tk text).tier_keys = a.tier_keys ∧
    (markPhase a tk text).profile_structure = a.profile_structure := by
  unfold markPhase
  split <;> exact ⟨rfl, rfl, rfl, rfl, rfl⟩

theorem markPhase_general_phase (a : Agent) (tk text : String)
    (h : a.current_phase = "general") :
    (markPhase a tk text).general_questions
        = markAnswered a.general_questions tk text ∧
    (markPhase a tk text).category_questions = a.category_questions := by
  unfold markPhase
  rw [if_pos h]
  exact ⟨rfl, rfl⟩

theorem markPhase_category_phase (a : Agent) (tk text : String)
    (h : a.current_phase ≠ "general") :
    (markPhase a tk text).general_questions = a.general_questions ∧
    (markPhase a tk text).category_questions
        = markAnswered a.category_questions tk text := by
  unfold markPhase
  rw [if_neg h]
  exact ⟨rfl, rfl⟩

theorem complete_fields (a : Agent) :
    (complete_current_tier a).current_tier_idx = a.current_tier_idx ∧
    (complete_current_tier a).current_phase = a.current_phase ∧
    (complete_current_tier a).current_q_idx = a.current_q_idx ∧
    (complete_current_tier a).tier_keys = a.tier_keys ∧
    (complete_current_tier a).profile_structure = a.profile_structure := by
  unfold complete_current_tier
  split
  · split <;> exact ⟨rfl, rfl, rfl, rfl, rfl⟩
  · exact ⟨rfl, rfl, rfl, rfl, rfl⟩

theorem advanceTier_fields (a : Agent) :
    (advance_to_next_tier a).tier_keys = a.tier_keys ∧
    (advance_to_next_tier a).category_questions = a.category_questions ∧
    (advance_to_next_tier a).profile_structure = a.profile_structure := by
  unfold advance_to_next_tier
  dsimp only
  split
  · split
    · split
      · exact ⟨rfl, rfl, rfl⟩
      · exact ⟨rfl, rfl, rfl⟩
    · exact ⟨rfl, rfl, rfl⟩
  · exact ⟨rfl, rfl, rfl⟩

theorem advance_fields (a : Agent) :
    (advance_to_next a).tier_keys = a.tier_keys ∧
    (advance_to_next a).profile_structure = a.profile_structure := by
  unfold advance_to_next
  dsimp only
  split
  · exact ⟨rfl, rfl⟩
  · split
    · exact ⟨rfl, rfl⟩
    · split
      · split
        · exact ⟨rfl, rfl⟩
        · split
          · refine ⟨?_, ?_⟩
            · rw [(advanceTier_fields _).1, (complete_fields _).2.2.2.1]
            · rw [(advanceTier_fields _).2.2, (complete_fields _).2.2.2.2]
          · exact ⟨rfl, rfl⟩
      · split
        · split
          · exact ⟨rfl, rfl⟩
          · refine ⟨?_, ?_⟩
            · rw [(advanceTier_fields _).1, (complete_fields _).2.2.2.1]
            · rw [(advanceTier_fields _).2.2, (complete_fields _).2.2.2.2]
        · exact ⟨rfl, rfl⟩

theorem complete_tierQuestions (a : Agent) (k : String) :
    tierQuestions (complete_current_tier a).general_questions k
      = tierQuestions a.general_questions k ∧
    tierQuestions (complete_current_tier a).category_questions k
      = tierQuestions a.category_questions k := by
  unfold complete_current_tier
  split
  · split
    · exact ⟨rfl, rfl⟩
    · exact ⟨tierQuestions_setStatus _ _ _ _, tierQuestions_setStatus _ _ _ _⟩
  · exact ⟨rfl, rfl⟩

theorem advanceTier_tierQuestions (a : Agent) (k : String) :
    tierQuestions (advance_to_next_tier a).general_questions k
      = tierQuestions a.general_questions k := by
  unfold advance_to_next_tier
  dsimp only
  split
  · split
    · split
      · exact tierQuestions_setStatus _ _ _ _
      · rfl
    · rfl
  · rfl

theorem advance_tierQuestions (a : Agent) (k : String) :
    tierQuestions (advance_to_next a).general_questions k
      = tierQuestions a.general_questions k ∧
    tierQuestions (advance_to_next a).category_questions k
      = tierQuestions a.category_questions k := by
  unfold advance_to_next
  dsimp only
  split
  · exact ⟨rfl, rfl⟩
  · split
    · exact ⟨rfl, rfl⟩
    · split
      · split
        · exact ⟨rfl, rfl⟩
        · split
          · constructor
            · rw [advanceTier_tierQuestions, (complete_tierQuestions _ k).1]
            · rw [(advanceTier_fields _).2.1, (complete_tierQuestions _ k).2]
          · exact ⟨rfl, rfl⟩
      · split
        · split
          · exact ⟨rfl, rfl⟩
          · constructor
            · rw [advanceTier_tierQuestions, (complete_tierQuestions _ k).1]
            · rw [(advanceTier_fields _).2.1, (complete_tierQuestions _ k).2]
        · exact ⟨rfl, rfl⟩

/- ===================== submit_answer success path ===================== -/

theorem get_current_question_some (a : Agent) (tk : String) (qd : Question)
    (htk : get_current_tier_key a = some tk) (hne : tk ≠ "")
    (hph : a.current_phase = "general" ∨ a.current_phase = "category")
    (hq : (get_pending_questions a (phaseDataset a) tk)[a.current_q_idx]? = some qd) :
    get_current_question a = some ⟨qd.question, qd.field, a.current_phase, tk⟩ := by
  rcases hph with hph | hph
  · have hpd : phaseDataset a = a.general_questions := by
      unfold phaseDataset
      rw [if_pos hph]
    rw [hpd] at hq
    simp [get_current_question, htk, hne, hph, hq]
  · have hpd : phaseDataset a = a.category_questions := by
      unfold phaseDataset
      rw [if_neg (by rw [hph]; decide)]
    rw [hpd] at hq
    simp [get_current_question, htk, hne, hph, hq,
      (by decide : ("category" : String) ≠ "general")]

theorem submit_answer_success (a : Agent) (ans tk : String) (qd : Question)
    (htk : get_current_tier_key a = some tk) (hne : tk ≠ "")
    (hph : a.current_phase = "general" ∨ a.current_phase = "category")
    (hq : (get_pending_questions a (phaseDataset a) tk)[a.current_q_idx]? = some qd) :
    submit_answer a ans =
      (true, advance_to_next
        (update_profile_structure (markPhase a tk qd.question) qd.field ans)) := by
  have hcq := get_current_question_some a tk qd htk hne hph hq
  unfold submit_answer
  simp [htk, hne, hcq, hq]

theorem chSplit_ne_nil (sep : Char) (l : List Char) : chSplit sep l ≠ [] := by
  cases l with
  | nil => simp [chSplit]
  | cons c cs =>
    unfold chSplit
    dsimp only
    split
    · simp
    · split
      · simp
      · simp

theorem pySplit_ne_nil (s : String) (sep : Char) : pySplit s sep ≠ [] := by
  unfold pySplit
  intro h
  exact chSplit_ne_nil sep s.data (List.map_eq_nil_iff.mp h)

/-- Claim C2 (amended): the Profile Tree write and the answered-marking of a
successful `submit_answer`, under the two carve-outs the code forces: every
existing entry met on the field path must be a dict (otherwise the write is
silently skipped, claim C10), and the matched question text is pinned to at
most one occurrence in the tier's full sequence (the code marks the first
text match, not the asked object). -/
theorem C2_answer_write_correct (a : Agent) (ans tk : String) (qd : Question)
    (htk : get_current_tier_key a = some tk) (hne : tk ≠ "")
    (hph : a.current_phase = "general" ∨ a.current_phase = "category")
    (hq : (get_pending_questions a (phaseDataset a) tk)[a.current_q_idx]? = some qd)
    (hfield : qd.field ≠ "")
    (hw : pathWritable (pySplit qd.field '.') a.profile_structure = true)
    (huniq : (tierQuestions (phaseDataset a) tk).countP
        (fun q => q.question == qd.question) ≤ 1) :
    (submit_answer a ans).1 = true ∧
    valueAtPath (submit_answer a ans).2.profile_structure (pySplit qd.field '.')
      = some (PVal.str ans) ∧
    (∀ q2 ∈ tierQuestions (if a.current_phase = "general"
          then (submit_answer a ans).2.general_questions
          else (submit_answer a ans).2.category_questions) tk,
        q2.question = qd.question → q2.qest = "answered") := by
  rw [submit_answer_success a ans tk qd htk hne hph hq]
  refine ⟨rfl, ?_, ?_⟩
  · rw [(advance_fields _).2, update_profile_profile, if_neg hfield,
      (markPhase_fields a tk qd.question).2.2.2.2]
    exact updPath_writes ans _ a.profile_structure (pySplit_ne_nil _ _) hw
  · rcases hph with hph | hph
    · rw [if_pos hph]
      have h1 := (advance_tierQuestions
        (update_profile_structure (markPhase a tk qd.question) qd.field ans) tk).1
      rw [h1, (update_profile_fields (markPhase a tk qd.question) qd.field ans).2.2.2.2.1,
        (markPhase_general_phase a tk qd.question hph).1,
        tierQuestions_markAnswered_self]
      have hpd : phaseDataset a = a.general_questions := by
        unfold phaseDataset
        rw [if_pos hph]
      rw [hpd] at huniq
      exact markFirst_marks qd.question _ huniq
    · have hphn : a.current_phase ≠ "general" := by
        rw [hph]
        decide
      rw [if_neg hphn]
      have h1 := (advance_tierQuestions
        (update_profile_structure (markPhase a tk qd.question) qd.field ans) tk).2
      rw [h1, (update_profile_fields (markPhase a tk qd.question) qd.field ans).2.2.2.2.2,
        (markPhase_category_phase a tk qd.question hphn).2,
        tierQuestions_markAnswered_self]
      have hpd : phaseDataset a = a.category_questions := by
        unfold phaseDataset
        rw [if_neg hphn]
      rw [hpd] at huniq
      exact markFirst_marks qd.question _ huniq

/-- Counterexample to claim C2 as stated: in `exBadLeaf` the current question
has field `a.b` but the profile holds the plain string `"old"` at `a.b`;
`submit_answer "Ans"` succeeds, yet the node at `a.b` gains no `value` entry
at all (the claim demands `value = "Ans"` there). -/
theorem C2_counterexample :
    (get_current_question exBadLeaf).map CurrentQ.field = some "a.b" ∧
    pySplit "a.b" '.' = ["a", "b"] ∧
    (submit_answer exBadLeaf "Ans").1 = true ∧
    valueAtPath (submit_answer exBadLeaf "Ans").2.profile_structure ["a", "b"]
      = none :=
  ⟨rfl, rfl, rfl, rfl⟩

/-- Witness for C2 at a concrete input: the spec §8 state, answering the name
question writes `name.value = "Alice"`. -/
theorem C2_witness :
    (submit_answer exS0 "Alice").1 = true ∧
    valueAtPath (submit_answer exS0 "Alice").2.profile_structure
      (pySplit exQName.field '.') = some (PVal.str "Alice") :=
  ⟨(C2_answer_write_correct exS0 "Alice" "tier1" exQName rfl (by decide)
      (Or.inl rfl) rfl (by decide) rfl (by decide)).1,
   (C2_answer_write_correct exS0 "Alice" "tier1" exQName rfl (by decide)
      (Or.inl rfl) rfl (by decide) rfl (by decide)).2.1⟩

/-- Claim C10: when the current question's field path resolves to an existing
non-dict entry, `submit_answer` still reports success and still marks the
(unique) matching question answered, but the Profile Tree is left entirely
unchanged — the answer is silently discarded. -/
theorem C10_silent_discard (a : Agent) (ans tk s : String) (qd : Question)
    (htk : get_current_tier_key a = some tk) (hne : tk ≠ "")
    (hph : a.current_phase = "general" ∨ a.current_phase = "category")
    (hq : (get_pending_questions a (phaseDataset a) tk)[a.current_q_idx]? = some qd)
    (hleaf : pvGetPath a.profile_structure (pySplit qd.field '.')
      = some (PVal.str s))
    (huniq : (tierQuestions (phaseDataset a) tk).countP
        (fun q => q.question == qd.question) ≤ 1) :
    (submit_answer a ans).1 = true ∧
    (submit_answer a ans).2.profile_structure = a.profile_structure ∧
    (∀ q2 ∈ tierQuestions (if a.current_phase = "general"
          then (submit_answer a ans).2.general_questions
          else (submit_answer a ans).2.category_questions) tk,
        q2.question = qd.question → q2.qest = "answered") := by
  rw [submit_answer_success a ans tk qd htk hne hph hq]
  refine ⟨rfl, ?_, ?_⟩
  · rw [(advance_fields _).2, update_profile_profile,
      (markPhase_fields a tk qd.question).2.2.2.2]
    by_cases hf : qd.field = ""
    · rw [if_pos hf]
    · rw [if_neg hf]
      exact updPath_noop ans _ a.profile_structure s hleaf (pySplit_ne_nil _ _)
  · rcases hph with hph | hph
    · rw [if_pos hph]
      have h1 := (advance_tierQuestions
        (update_profile_structure (markPhase a tk qd.question) qd.field ans) tk).1
      rw [h1, (update_profile_fields (markPhase a tk qd.question) qd.field ans).2.2.2.2.1,
        (markPhase_general_phase a tk qd.question hph).1,
        tierQuestions_markAnswered_self]
      have hpd : phaseDataset a = a.general_questions := by
        unfold phaseDataset
        rw [if_pos hph]
      rw [hpd] at huniq
      exact markFirst_marks qd.question _ huniq
    · have hphn : a.current_phase ≠ "general" := by
        rw [hph]
        decide
      rw [if_neg hphn]
      have h1 := (advance_tierQuestions
        (update_profile_structure (markPhase a tk qd.question) qd.field ans) tk).2
      rw [h1, (update_profile_fields (markPhase a tk qd.question) qd.field ans).2.2.2.2.2,
        (markPhase_category_phase a tk qd.question hphn).2,
        tierQuestions_markAnswered_self]
      have hpd : phaseDataset a = a.category_questions := by
        unfold phaseDataset
        rw [if_neg hphn]
      rw [hpd] at huniq
      exact markFirst_marks qd.question _ huniq

/-- Witness for C10 at a concrete input: in `exBadLeaf`, answering succeeds
and the profile tree is byte-for-byte unchanged. -/
theorem C10_witness :
    (submit_answer exBadLeaf "Ans").1 = true ∧
    (submit_answer exBadLeaf "Ans").2.profile_structure
      = exBadLeaf.profile_structure :=
  ⟨(C10_silent_discard exBadLeaf "Ans" "tier1" "old" ⟨"Q1?", "a.b", "pending"⟩
      rfl (by decide) (Or.inl rfl) rfl rfl (by decide)).1,
   (C10_silent_discard exBadLeaf "Ans" "tier1" "old" ⟨"Q1?", "a.b", "pending"⟩
      rfl (by decide) (Or.inl rfl) rfl rfl (by decide)).2.1⟩

/-- Claim C3 (amended): the pending view is always the order-preserving
`qest == pending` filter of the tier's question sequence, gated to `[]` when
the dataset is value-equal (Python `==`) to the general set and the tier's
status is neither `in_process` nor unset. The gate therefore binds the
general set always, and the category set exactly when its content equals the
general set's; tier keys are assumed non-empty (the code treats an empty key
as falsy and yields `[]`). -/
theorem C3_pending_filter (a : Agent) (ds : QSet) (tk : String) (hne : tk ≠ "") :
    get_pending_questions a ds tk =
      if qsetEq ds a.general_questions ∧ tierStatus ds tk ≠ "in_process"
          ∧ tierStatus ds tk ≠ "" then []
      else (tierQuestions ds tk).filter (fun q => q.qest == "pending") := by
  unfold get_pending_questions
  dsimp only
  by_cases h1 : ds.isEmpty ∨ tk = "" ∨ (alGet ds tk).isNone
  · rw [if_pos h1]
    rcases h1 with h1 | h1 | h1
    · have hd : ds = [] := by simpa [List.isEmpty_iff] using h1
      subst hd
      simp [tierStatus, tierQuestions, alGet]
    · exact absurd h1 hne
    · rw [Option.isNone_iff_eq_none] at h1
      have hs : tierStatus ds tk = "" := by
        rw [tierStatus, h1]
        rfl
      have hqs : tierQuestions ds tk = [] := by
        rw [tierQuestions, h1]
        rfl
      rw [hs]
      simp [hqs]
  · rw [if_neg h1]

/-- Counterexample to claim C3 as stated: in `exTwin` the category set is
value-equal to the general set, so the completed-status gate fires for the
category dataset as well — `tier1` is `completed` yet holds a pending
question, and the category pending view is `[]` instead of that question. -/
theorem C3_counterexample :
    get_pending_questions exTwin exTwin.category_questions "tier1" = [] ∧
    (tierQuestions exTwin.category_questions "tier1").filter
        (fun q => q.qest == "pending") = [⟨"Q1?", "f", "pending"⟩] ∧
    ([] : List Question) ≠ [⟨"Q1?", "f", "pending"⟩] :=
  ⟨rfl, rfl, by decide⟩

/-- Witness for C3 at a concrete input: in the spec §8 state the general
pending view of `tier1` is the two pending questions in original order. -/
theorem C3_witness :
    get_pending_questions exS0 exS0.general_questions "tier1"
      = [exQName, exQAge] :=
  (C3_pending_filter exS0 exS0.general_questions "tier1" (by decide)).trans
    (by decide)

theorem get_pending_ne_nil_isSome (a : Agent) (ds : QSet) (tk : String)
    (h : get_pending_questions a ds tk ≠ []) : (alGet ds tk).isSome := by
  unfold get_pending_questions at h
  by_cases h1 : ds.isEmpty ∨ tk = "" ∨ (alGet ds tk).isNone
  · rw [if_pos h1] at h
    exact absurd rfl h
  · push_neg at h1
    rcases h1 with ⟨-, -, h1⟩
    cases halg : alGet ds tk with
    | none => exact absurd (by rw [halg]; rfl) h1
    | some t => rfl

theorem get_pending_ne_nil_filter (a : Agent) (ds : QSet) (tk : String)
    (h : get_pending_questions a ds tk ≠ []) :
    get_pending_questions a ds tk
      = (tierQuestions ds tk).filter (fun q => q.qest == "pending") := by
  unfold get_pending_questions at h ⊢
  dsimp only at h ⊢
  split at h
  · exact absurd rfl h
  · split at h
    · exact absurd rfl h
    · next h1 h2 =>
      rw [if_neg h1, if_neg h2]

theorem get_pending_of_filter_nil (a : Agent) (ds : QSet) (tk : String)
    (h : (tierQuestions ds tk).filter (fun q => q.qest == "pending") = []) :
    get_pending_questions a ds tk = [] := by
  unfold get_pending_questions
  dsimp only
  split
  · rfl
  · split
    · rfl
    · exact h

theorem advance_general_to_next_tier (b : Agent) (tk : String)
    (htk : get_current_tier_key b = some tk) (hne : tk ≠ "")
    (hph : b.current_phase = "general")
    (hpend : (get_pending_questions b b.general_questions tk).length
      ≤ b.current_q_idx + 1)
    (hcat : (tierQuestions b.category_questions tk).filter
        (fun q => q.qest == "pending") = []) :
    advance_to_next b =
      advance_to_next_tier (complete_current_tier
        {b with current_phase := "category", current_q_idx := 0}) := by
  have hcond : ¬(get_pending_questions b b.general_questions tk ≠ [] ∧
      b.current_q_idx + 1 < (get_pending_questions b b.general_questions tk).length) := by
    rintro ⟨-, hlt⟩
    omega
  have hcat2 : get_pending_questions
      {b with current_phase := "category", current_q_idx := 0}
      ({b with current_phase := "category", current_q_idx := 0}).category_questions
      tk = [] :=
    get_pending_of_filter_nil _ _ _ hcat
  simp only [advance_to_next, htk]
  rw [if_neg hne, if_pos hph, if_neg hcond]
  dsimp only
  rw [if_pos hcat2]

theorem advanceTier_result (b : Agent)
    (h : b.current_tier_idx + 1 < b.tier_keys.length) :
    (advance_to_next_tier b).current_tier_idx = b.current_tier_idx + 1 ∧
    (advance_to_next_tier b).current_phase = "general" ∧
    (advance_to_next_tier b).current_q_idx = 0 ∧
    (∀ k2, b.tier_keys[b.current_tier_idx + 1]? ≠ some k2 →
      tierStatus (advance_to_next_tier b).general_questions k2
        = tierStatus b.general_questions k2) := by
  unfold advance_to_next_tier
  dsimp only
  rw [if_pos h]
  split
  · next ntk heq =>
    split
    · refine ⟨rfl, rfl, rfl, ?_⟩
      intro k2 hk2
      have hnk : ntk ≠ k2 := by
        intro hh
        subst hh
        exact hk2 heq
      exact tierStatus_setStatus_ne _ _ _ _ (fun hh => hnk hh.symm)
    · exact ⟨rfl, rfl, rfl, fun k2 _ => rfl⟩
  · exact ⟨rfl, rfl, rfl, fun k2 _ => rfl⟩

/-- Claim C6: when the current tier is down to one pending general question
and its category set holds no pending question, answering it moves the engine
directly to the next tier `(t+1, general, 0)` — the observed position never
rests in the category phase — and the tier is marked `completed` in the
general set and, where the key exists, in the category set as well. (Distinct
tier keys, as in every real dict-derived key list, are assumed through the
last hypothesis.) -/
theorem C6_empty_category_skip (a : Agent) (ans tk : String) (qd : Question)
    (htk : get_current_tier_key a = some tk) (hne : tk ≠ "")
    (hph : a.current_phase = "general")
    (hpend : get_pending_questions a a.general_questions tk = [qd])
    (hidx : a.current_q_idx = 0)
    (hcat : (tierQuestions a.category_questions tk).filter
        (fun q => q.qest == "pending") = [])
    (hnext : a.current_tier_idx + 1 < a.tier_keys.length)
    (hnk : a.tier_keys[a.current_tier_idx + 1]? ≠ some tk) :
    (submit_answer a ans).1 = true ∧
    (submit_answer a ans).2.current_tier_idx = a.current_tier_idx + 1 ∧
    (submit_answer a ans).2.current_phase = "general" ∧
    (submit_answer a ans).2.current_q_idx = 0 ∧
    tierStatus (submit_answer a ans).2.general_questions tk = "completed" ∧
    ((alGet a.category_questions tk).isSome →
      tierStatus (submit_answer a ans).2.category_questions tk = "completed") := by
  have hpd : phaseDataset a = a.general_questions := by
    unfold phaseDataset
    rw [if_pos hph]
  have hq : (get_pending_questions a (phaseDataset a) tk)[a.current_q_idx]?
      = some qd := by
    rw [hpd, hpend, hidx]
    rfl
  rw [submit_answer_success a ans tk qd htk hne (Or.inl hph) hq]
  generalize ha2 :
    update_profile_structure (markPhase a tk qd.question) qd.field ans = a2
  have hf1 : a2.current_phase = "general" := by
    rw [← ha2, (update_profile_fields _ _ _).2.1, (markPhase_fields _ _ _).2.1, hph]
  have hf2 : a2.current_tier_idx = a.current_tier_idx := by
    rw [← ha2, (update_profile_fields _ _ _).1, (markPhase_fields _ _ _).1]
  have hf3 : a2.current_q_idx = 0 := by
    rw [← ha2, (update_profile_fields _ _ _).2.2.1, (markPhase_fields _ _ _).2.2.1, hidx]
  have hf4 : a2.tier_keys = a.tier_keys := by
    rw [← ha2, (update_profile_fields _ _ _).2.2.2.1, (markPhase_fields _ _ _).2.2.2.1]
  have hf5 : a2.general_questions = markAnswered a.general_questions tk qd.question := by
    rw [← ha2, (update_profile_fields _ _ _).2.2.2.2.1,
      (markPhase_general_phase _ _ _ hph).1]
  have hf6 : a2.category_questions = a.category_questions := by
    rw [← ha2, (update_profile_fields _ _ _).2.2.2.2.2,
      (markPhase_general_phase _ _ _ hph).2]
  have htk2 : get_current_tier_key a2 = some tk := by
    unfold get_current_tier_key
    rw [hf4, hf2]
    exact htk
  have hsome : (alGet a.general_questions tk).isSome :=
    get_pending_ne_nil_isSome a _ tk (by rw [hpend]; simp)
  have hlen : (get_pending_questions a2 a2.general_questions tk).length
      ≤ a2.current_q_idx + 1 := by
    rw [hf3]
    by_cases hp : get_pending_questions a2 a2.general_questions tk = []
    · rw [hp]
      simp
    · rw [get_pending_ne_nil_filter a2 _ tk hp, hf5, tierQuestions_markAnswered_self]
      have horig : (tierQuestions a.general_questions tk).filter
          (fun q => q.qest == "pending") = [qd] := by
        rw [← get_pending_ne_nil_filter a a.general_questions tk (by rw [hpend]; simp),
          hpend]
      have hb := markFirst_filter_length_le qd.question (tierQuestions a.general_questions tk)
      rw [horig] at hb
      simpa using hb
  have hcat6 : (tierQuestions a2.category_questions tk).filter
      (fun q => q.qest == "pending") = [] := by
    rw [hf6]
    exact hcat
  rw [advance_general_to_next_tier a2 tk htk2 hne hf1 hlen hcat6]
  have htk3 : get_current_tier_key
      {a2 with current_phase := "category", current_q_idx := 0} = some tk := htk2
  have hcomp : complete_current_tier
      {a2 with current_phase := "category", current_q_idx := 0}
      = {a2 with
          current_phase := "category"
          current_q_idx := 0
          general_questions := setStatus a2.general_questions tk "completed"
          category_questions := setStatus a2.category_questions tk "completed"} := by
    simp only [complete_current_tier, htk3]
    rw [if_neg hne]
  rw [hcomp]
  set a4 : Agent := {a2 with
    current_phase := "category"
    current_q_idx := 0
    general_questions := setStatus a2.general_questions tk "completed"
    category_questions := setStatus a2.category_questions tk "completed"} with ha4
  have h4 : a4.current_tier_idx + 1 < a4.tier_keys.length := by
    rw [ha4]
    dsimp only
    rw [hf2, hf4]
    exact hnext
  obtain ⟨hr1, hr2, hr3, hr4⟩ := advanceTier_result a4 h4
  have hsome2 : (alGet a2.general_questions tk).isSome := by
    rw [hf5]
    obtain ⟨t, ht⟩ := Option.isSome_iff_exists.mp hsome
    rw [markAnswered_get_self _ _ _ t ht]
    rfl
  refine ⟨rfl, ?_, hr2, hr3, ?_, ?_⟩
  · rw [hr1, ha4]
    dsimp only
    rw [hf2]
  · have hk2 : a4.tier_keys[a4.current_tier_idx + 1]? ≠ some tk := by
      rw [ha4]
      dsimp only
      rw [hf4, hf2]
      exact hnk
    rw [hr4 tk hk2, ha4]
    dsimp only
    exact tierStatus_setStatus_self _ _ _ hsome2
  · intro hsc
    rw [(advanceTier_fields _).2.1, ha4]
    dsimp only
    refine tierStatus_setStatus_self _ _ _ ?_
    rw [hf6]
    exact hsc

/-- Witness for C6 at a concrete input: one pending general question in
`tier1`, empty category set — answering jumps straight to `(tier2, general,
0)` with `tier1` completed. -/
theorem C6_witness :
    (submit_answer exSSkip "Alice").1 = true ∧
    (submit_answer exSSkip "Alice").2.current_tier_idx = 1 ∧
    (submit_answer exSSkip "Alice").2.current_phase = "general" ∧
    (submit_answer exSSkip "Alice").2.current_q_idx = 0 ∧
    tierStatus (submit_answer exSSkip "Alice").2.general_questions "tier1"
      = "completed" := by
  have h := C6_empty_category_skip exSSkip "Alice" "tier1" exQName rfl
    (by decide) rfl rfl rfl rfl (by decide) (by decide)
  exact ⟨h.1, h.2.1.trans rfl, h.2.2.1, h.2.2.2.1, h.2.2.2.2.1⟩

/- ===================== status preservation lemmas ===================== -/

theorem tierStatus_setStatus_cases (qs : QSet) (k2 s k : String) :
    tierStatus (setStatus qs k2 s) k = tierStatus qs k ∨
    tierStatus (setStatus qs k2 s) k = s := by
  by_cases hk : k = k2
  · subst hk
    cases hget : alGet qs k with
    | none =>
      rw [setStatus_absent _ _ _ hget]
      exact Or.inl rfl
    | some t =>
      right
      simp [tierStatus, setStatus_get_self _ _ _ t hget]
  · exact Or.inl (tierStatus_setStatus_ne _ _ _ _ hk)

theorem complete_status_general (b : Agent) (k : String)
    (h : tierStatus b.general_questions k = "completed") :
    tierStatus (complete_current_tier b).general_questions k = "completed" := by
  unfold complete_current_tier
  split
  · next tk heq =>
    split
    · exact h
    · dsimp only
      rcases tierStatus_setStatus_cases b.general_questions tk "completed" k with hc | hc
      · rw [hc]
        exact h
      · exact hc
  · exact h

theorem complete_status_category (b : Agent) (k : String)
    (h : tierStatus b.category_questions k = "completed") :
    tierStatus (complete_current_tier b).category_questions k = "completed" := by
  unfold complete_current_tier
  split
  · next tk heq =>
    split
    · exact h
    · dsimp only
      rcases tierStatus_setStatus_cases b.category_questions tk "completed" k with hc | hc
      · rw [hc]
        exact h
      · exact hc
  · exact h

theorem advanceTier_status_general (b : Agent) (k : String)
    (h : tierStatus b.general_questions k = "completed")
    (hg : (advance_to_next_tier b).current_tier_idx = b.current_tier_idx ∨
      get_current_tier_key (advance_to_next_tier b) ≠ some k) :
    tierStatus (advance_to_next_tier b).general_questions k = "completed" := by
  by_cases hlt : b.current_tier_idx + 1 < b.tier_keys.length
  · have hidx : (advance_to_next_tier b).current_tier_idx = b.current_tier_idx + 1 :=
      (advanceTier_result b hlt).1
    have hcur : get_current_tier_key (advance_to_next_tier b) ≠ some k := by
      rcases hg with hg | hg
      · rw [hidx] at hg
        omega
      · exact hg
    have hkk : b.tier_keys[b.current_tier_idx + 1]? ≠ some k := by
      have heq2 : get_current_tier_key (advance_to_next_tier b)
          = b.tier_keys[b.current_tier_idx + 1]? := by
        unfold get_current_tier_key
        rw [hidx, (advanceTier_fields b).1]
      rw [heq2] at hcur
      exact hcur
    rw [(advanceTier_result b hlt).2.2.2 k hkk]
    exact h
  · have hend : advance_to_next_tier b = {b with current_tier_idx := b.tier_keys.length} := by
      unfold advance_to_next_tier
      rw [if_neg hlt]
    rw [hend]
    exact h

theorem advance_cases (b : Agent) :
    ((advance_to_next b).general_questions = b.general_questions ∧
     (advance_to_next b).category_questions = b.category_questions ∧
     (advance_to_next b).current_tier_idx = b.current_tier_idx) ∨
    ∃ b1 : Agent, b1.general_questions = b.general_questions ∧
      b1.category_questions = b.category_questions ∧
      b1.current_tier_idx = b.current_tier_idx ∧
      b1.tier_keys = b.tier_keys ∧
      advance_to_next b = advance_to_next_tier (complete_current_tier b1) := by
  unfold advance_to_next
  dsimp only
  split
  · left
    exact ⟨rfl, rfl, rfl⟩
  · split
    · left
      exact ⟨rfl, rfl, rfl⟩
    · split
      · split
        · left
          exact ⟨rfl, rfl, rfl⟩
        · split
          · right
            exact ⟨{b with current_phase := "category", current_q_idx := 0},
              rfl, rfl, rfl, rfl, rfl⟩
          · left
            exact ⟨rfl, rfl, rfl⟩
      · split
        · split
          · left
            exact ⟨rfl, rfl, rfl⟩
          · right
            exact ⟨b, rfl, rfl, rfl, rfl, rfl⟩
        · left
          exact ⟨rfl, rfl, rfl⟩

theorem advance_status_general (b : Agent) (k : String)
    (h : tierStatus b.general_questions k = "completed")
    (hg : (advance_to_next b).current_tier_idx = b.current_tier_idx ∨
      get_current_tier_key (advance_to_next b) ≠ some k) :
    tierStatus (advance_to_next b).general_questions k = "completed" := by
  rcases advance_cases b with ⟨hgq, -, -⟩ | ⟨b1, hb1g, -, hb1i, hb1t, heq⟩
  · rw [hgq]
    exact h
  · rw [heq]
    rw [heq] at hg
    have hc : tierStatus (complete_current_tier b1).general_questions k = "completed" := by
      apply complete_status_general
      rw [hb1g]
      exact h
    apply advanceTier_status_general (complete_current_tier b1) k hc
    rcases hg with hg | hg
    · left
      rw [hg, (complete_fields b1).1, hb1i]
    · right
      exact hg

theorem advance_status_category (b : Agent) (k : String)
    (h : tierStatus b.category_questions k = "completed") :
    tierStatus (advance_to_next b).category_questions k = "completed" := by
  rcases advance_cases b with ⟨-, hcq, -⟩ | ⟨b1, -, hb1c, -, -, heq⟩
  · rw [hcq]
    exact h
  · rw [heq, (advanceTier_fields _).2.1]
    apply complete_status_category
    rw [hb1c]
    exact h

theorem pickUpAux_preserves_completed (gen : QSet) (keys : List String) (k : String)
    (h : tierStatus gen k = "completed") :
    tierStatus (pickUpAux gen keys).2 k = "completed" := by
  induction keys with
  | nil => exact h
  | cons k1 rest ih =>
    unfold pickUpAux
    dsimp only
    split
    · exact ih
    · next hst =>
      split
      · by_cases hk : k = k1
        · subst hk
          exact absurd h hst
        · rw [tierStatus_setStatus_ne _ _ _ _ hk]
          exact h
      · exact h

theorem submit_cases (a : Agent) (ans : String) :
    (submit_answer a ans).2 = a ∨
    ∃ tk text fp, (submit_answer a ans).2
      = advance_to_next (update_profile_structure (markPhase a tk text) fp ans) := by
  unfold submit_answer
  split
  · exact Or.inl rfl
  · next tk heq =>
    split
    · exact Or.inl rfl
    · split
      · exact Or.inl rfl
      · next cq hcq =>
        split
        · exact Or.inl rfl
        · next qtu hq =>
          right
          exact ⟨tk, qtu.question, cq.field, rfl⟩

theorem submit_intermediate_status (a : Agent) (tk text fp ans : String) (k : String) :
    tierStatus (update_profile_structure (markPhase a tk text) fp ans).general_questions k
      = tierStatus a.general_questions k ∧
    tierStatus (update_profile_structure (markPhase a tk text) fp ans).category_questions k
      = tierStatus a.category_questions k := by
  rw [(update_profile_fields _ _ _).2.2.2.2.1, (update_profile_fields _ _ _).2.2.2.2.2]
  unfold markPhase
  split
  · exact ⟨tierStatus_markAnswered _ _ _ _, rfl⟩
  · exact ⟨rfl, tierStatus_markAnswered _ _ _ _⟩

/-- Counterexample to claim C4 as stated: from persisted documents where
`tier2` is already `completed` while `tier1` is still open, the loaded engine
is reachable, `tier2` is `completed` in the general set — and one
`submit_answer` (which exhausts `tier1` and advances) resets `tier2` to
`in_process`: `advance_to_next_tier` stamps the new current tier
unconditionally. -/
theorem C4_counterexample :
    Reachable exSLate ∧
    tierStatus exSLate.general_questions "tier2" = "completed" ∧
    (submit_answer exSLate "x").1 = true ∧
    (submit_answer exSLate "x").2.current_tier_idx = 1 ∧
    tierStatus (submit_answer exSLate "x").2.general_questions "tier2"
      = "in_process" :=
  ⟨Reachable.load (some exGenLate) (some []) (some (PVal.obj [])) (by decide),
   rfl, rfl, rfl, rfl⟩

/-- Claim C4 (amended): a `completed` status in the category set is never
reverted by any of the five operations, and a `completed` status in the
general set is preserved by the resumption scan and by
`complete_current_tier` unconditionally, and by `advance_to_next_tier`,
`advance_to_next` and `submit_answer` for every tier except the one that
becomes the new current tier when the operation advances the tier index —
that single tier's general status is unconditionally reset to `in_process`. -/
theorem C4_completed_monotone (a : Agent) (ans k : String) :
    (tierStatus a.general_questions k = "completed" →
      tierStatus (pick_up_where_left_off a).general_questions k = "completed") ∧
    (tierStatus a.general_questions k = "completed" →
      tierStatus (complete_current_tier a).general_questions k = "completed") ∧
    (tierStatus a.general_questions k = "completed" →
      ((advance_to_next_tier a).current_tier_idx = a.current_tier_idx ∨
        get_current_tier_key (advance_to_next_tier a) ≠ some k) →
      tierStatus (advance_to_next_tier a).general_questions k = "completed") ∧
    (tierStatus a.general_questions k = "completed" →
      ((advance_to_next a).current_tier_idx = a.current_tier_idx ∨
        get_current_tier_key (advance_to_next a) ≠ some k) →
      tierStatus (advance_to_next a).general_questions k = "completed") ∧
    (tierStatus a.general_questions k = "completed" →
      ((submit_answer a ans).2.current_tier_idx = a.current_tier_idx ∨
        get_current_tier_key (submit_answer a ans).2 ≠ some k) →
      tierStatus (submit_answer a ans).2.general_questions k = "completed") ∧
    (tierStatus a.category_questions k = "completed" →
      tierStatus (pick_up_where_left_off a).category_questions k = "completed") ∧
    (tierStatus a.category_questions k = "completed" →
      tierStatus (complete_current_tier a).category_questions k = "completed") ∧
    (tierStatus a.category_questions k = "completed" →
      tierStatus (advance_to_next_tier a).category_questions k = "completed") ∧
    (tierStatus a.category_questions k = "completed" →
      tierStatus (advance_to_next a).category_questions k = "completed") ∧
    (tierStatus a.category_questions k = "completed" →
      tierStatus (submit_answer a ans).2.category_questions k = "completed") := by
  refine ⟨?_, ?_, ?_, ?_, ?_, ?_, ?_, ?_, ?_, ?_⟩
  · intro h
    exact pickUpAux_preserves_completed a.general_questions a.tier_keys k h
  · exact complete_status_general a k
  · exact advanceTier_status_general a k
  · exact advance_status_general a k
  · intro h hg
    rcases submit_cases a ans with hs | ⟨tk, text, fp, hs⟩
    · rw [hs]
      exact h
    · rw [hs]
      rw [hs] at hg
      apply advance_status_general
      · rw [(submit_intermediate_status a tk text fp ans k).1]
        exact h
      · rcases hg with hg | hg
        · left
          rw [hg, (update_profile_fields _ _ _).1, (markPhase_fields _ _ _).1]
        · right
          exact hg
  · intro h
    exact h
  · exact complete_status_category a k
  · intro h
    rw [(advanceTier_fields a).2.1]
    exact h
  · exact advance_status_category a k
  · intro h
    rcases submit_cases a ans with hs | ⟨tk, text, fp, hs⟩
    · rw [hs]
      exact h
    · rw [hs]
      apply advance_status_category
      rw [(submit_intermediate_status a tk text fp ans k).2]
      exact h

/-- Witness for C4 (amended) at a concrete input: in `exTwin`, `tier1` is
`completed` in both sets, and each operation (the tier-advancing ones under
their guard, satisfied here) leaves it `completed`. -/
theorem C4_witness :
    tierStatus (pick_up_where_left_off exTwin).general_questions "tier1"
      = "completed" ∧
    tierStatus (complete_current_tier exTwin).general_questions "tier1"
      = "completed" ∧
    tierStatus (advance_to_next_tier exTwin).general_questions "tier1"
      = "completed" ∧
    tierStatus (advance_to_next exTwin).general_questions "tier1"
      = "completed" ∧
    tierStatus (submit_answer exTwin "x").2.general_questions "tier1"
      = "completed" ∧
    tierStatus (pick_up_where_left_off exTwin).category_questions "tier1"
      = "completed" ∧
    tierStatus (complete_current_tier exTwin).category_questions "tier1"
      = "completed" ∧
    tierStatus (advance_to_next_tier exTwin).category_questions "tier1"
      = "completed" ∧
    tierStatus (advance_to_next exTwin).category_questions "tier1"
      = "completed" ∧
    tierStatus (submit_answer exTwin "x").2.category_questions "tier1"
      = "completed" :=
  ⟨(C4_completed_monotone exTwin "x" "tier1").1 rfl,
   (C4_completed_monotone exTwin "x" "tier1").2.1 rfl,
   (C4_completed_monotone exTwin "x" "tier1").2.2.1 rfl (Or.inr (by decide)),
   (C4_completed_monotone exTwin "x" "tier1").2.2.2.1 rfl (Or.inr (by decide)),
   (C4_completed_monotone exTwin "x" "tier1").2.2.2.2.1 rfl (Or.inl rfl),
   (C4_completed_monotone exTwin "x" "tier1").2.2.2.2.2.1 rfl,
   (C4_completed_monotone exTwin "x" "tier1").2.2.2.2.2.2.1 rfl,
   (C4_completed_monotone exTwin "x" "tier1").2.2.2.2.2.2.2.1 rfl,
   (C4_completed_monotone exTwin "x" "tier1").2.2.2.2.2.2.2.2.1 rfl,
   (C4_completed_monotone exTwin "x" "tier1").2.2.2.2.2.2.2.2.2 rfl⟩

/- ===================== resumption lemmas ===================== -/

theorem insertByRank_perm (k : String) (l : List String) :
    (insertByRank k l).Perm (k :: l) := by
  induction l with
  | nil => exact List.Perm.refl _
  | cons x xs ih =>
    unfold insertByRank
    split
    · exact List.Perm.refl _
    · exact (ih.cons x).trans (List.Perm.swap k x xs)

theorem sortByRank_perm (l : List String) : (sortByRank l).Perm l := by
  induction l with
  | nil => exact List.Perm.refl _
  | cons x xs ih =>
    unfold sortByRank at ih ⊢
    dsimp only [List.foldr]
    exact (insertByRank_perm x _).trans (ih.cons x)

theorem pickUpAux_keys (gen : QSet) (keys : List String) :
    ((pickUpAux gen keys).2).map Prod.fst = gen.map Prod.fst := by
  induction keys with
  | nil => rfl
  | cons k rest ih =>
    unfold pickUpAux
    dsimp only
    split
    · exact ih
    · split
      · exact setStatus_keys _ _ _
      · rfl

theorem pickUpAux_status_not_mem (gen : QSet) (keys : List String) (k : String)
    (h : k ∉ keys) :
    tierStatus (pickUpAux gen keys).2 k = tierStatus gen k := by
  induction keys with
  | nil => rfl
  | cons k1 rest ih =>
    have hk1 : k ≠ k1 := fun hh => h (hh ▸ List.mem_cons_self k1 rest)
    have hrest : k ∉ rest := fun hh => h (List.mem_cons_of_mem k1 hh)
    unfold pickUpAux
    dsimp only
    split
    · exact ih hrest
    · split
      · exact tierStatus_setStatus_ne _ _ _ _ hk1
      · rfl

theorem pickUpAux_cons (gen : QSet) (k : String) (rest : List String) :
    pickUpAux gen (k :: rest) =
      if tierStatus gen k = "completed" then
        ((pickUpAux gen rest).1 + 1, (pickUpAux gen rest).2)
      else
        (0, if tierStatus gen k ≠ "in_process"
            then setStatus gen k "in_process" else gen) := rfl

theorem pickUpAux_idem (gen : QSet) (keys : List String) (hnd : keys.Nodup) :
    pickUpAux (pickUpAux gen keys).2 keys = pickUpAux gen keys := by
  induction keys with
  | nil => rfl
  | cons k rest ih =>
    have hk_rest : k ∉ rest := (List.nodup_cons.mp hnd).1
    have hnd2 : rest.Nodup := (List.nodup_cons.mp hnd).2
    by_cases hst : tierStatus gen k = "completed"
    · have h1 : pickUpAux gen (k :: rest)
          = ((pickUpAux gen rest).1 + 1, (pickUpAux gen rest).2) := by
        rw [pickUpAux_cons, if_pos hst]
      rw [h1]
      have hst2 : tierStatus (pickUpAux gen rest).2 k = "completed" := by
        rw [pickUpAux_status_not_mem gen rest k hk_rest]
        exact hst
      rw [pickUpAux_cons, if_pos hst2, ih hnd2]
    · by_cases hip : tierStatus gen k = "in_process"
      · have h1 : pickUpAux gen (k :: rest) = (0, gen) := by
          rw [pickUpAux_cons, if_neg hst, if_neg (by rw [hip]; simp)]
        rw [h1]
        exact h1
      · cases hget : alGet gen k with
        | none =>
          have hg2 : setStatus gen k "in_process" = gen := setStatus_absent _ _ _ hget
          have h1 : pickUpAux gen (k :: rest) = (0, gen) := by
            rw [pickUpAux_cons, if_neg hst, if_pos hip, hg2]
          rw [h1]
          exact h1
        | some t =>
          have h1 : pickUpAux gen (k :: rest) = (0, setStatus gen k "in_process") := by
            rw [pickUpAux_cons, if_neg hst, if_pos hip]
          rw [h1]
          have hstg : tierStatus (setStatus gen k "in_process") k = "in_process" :=
            tierStatus_setStatus_self _ _ _ (by rw [hget]; rfl)
          rw [pickUpAux_cons, if_neg (by rw [hstg]; decide),
            if_neg (by rw [hstg]; simp)]

theorem deriveTierKeys_congr (g1 g2 : QSet) (h : g1.map Prod.fst = g2.map Prod.fst) :
    deriveTierKeys g1 = deriveTierKeys g2 := by
  unfold deriveTierKeys
  rw [h]

theorem isEmpty_eq_of_map_fst_eq (g1 g2 : QSet)
    (h : g1.map Prod.fst = g2.map Prod.fst) : g1.isEmpty = g2.isEmpty := by
  cases g1 with
  | nil =>
    cases g2 with
    | nil => rfl
    | cons y ys => simp at h
  | cons x xs =>
    cases g2 with
    | nil => simp at h
    | cons y ys => rfl

theorem load_data_phase (genDoc catDoc : Option QSet) (profDoc : Option PVal) :
    (load_data genDoc catDoc profDoc).current_phase = "general" ∧
    (load_data genDoc catDoc profDoc).current_q_idx = 0 := by
  unfold load_data
  dsimp only
  split
  · exact ⟨rfl, rfl⟩
  · split <;> exact ⟨rfl, rfl⟩

theorem load_load_idx (gen : QSet) (c1 : Option QSet) (p1 : Option PVal)
    (c2 : Option QSet) (p2 : Option PVal) (hnd : (gen.map Prod.fst).Nodup) :
    (load_data (some (load_data (some gen) c1 p1).general_questions) c2 p2).current_tier_idx
      = (load_data (some gen) c1 p1).current_tier_idx := by
  by_cases hge : gen.isEmpty
  · have hgen : gen = [] := by simpa [List.isEmpty_iff] using hge
    subst hgen
    rfl
  · cases hdk : deriveTierKeys gen with
    | none =>
      have h1 : load_data (some gen) c1 p1 = pick_up_where_left_off emptyAgent := by
        unfold load_data
        simp only [Option.getD_some]
        rw [if_neg hge, hdk]
      rw [h1]
      rfl
    | some tks =>
      have hks : tks
          = sortByRank ((gen.map Prod.fst).filter (fun k => pyStartsWithTier k)) := by
        unfold deriveTierKeys at hdk
        dsimp only at hdk
        split at hdk
        · simp only [Option.some.injEq] at hdk
          exact hdk.symm
        · cases hdk
      have hnd2 : tks.Nodup := by
        rw [hks]
        exact ((sortByRank_perm _).nodup_iff).mpr (hnd.filter _)
      have h1 : load_data (some gen) c1 p1 = pick_up_where_left_off
          ⟨0, "general", 0, tks, gen, c1.getD [], p1.getD (PVal.obj [])⟩ := by
        unfold load_data
        simp only [Option.getD_some]
        rw [if_neg hge, hdk]
      have hkeys : ((pickUpAux gen tks).2).map Prod.fst = gen.map Prod.fst :=
        pickUpAux_keys gen tks
      have hge2 : ¬((pickUpAux gen tks).2.isEmpty = true) := by
        rw [isEmpty_eq_of_map_fst_eq _ gen hkeys]
        exact hge
      have hdk2 : deriveTierKeys (pickUpAux gen tks).2 = some tks :=
        (deriveTierKeys_congr _ gen hkeys).trans hdk
      have h2 : load_data (some (pickUpAux gen tks).2) c2 p2
          = pick_up_where_left_off
            ⟨0, "general", 0, tks, (pickUpAux gen tks).2, c2.getD [],
              p2.getD (PVal.obj [])⟩ := by
        unfold load_data
        simp only [Option.getD_some]
        rw [if_neg hge2, hdk2]
      rw [h1]
      have hgq : (pick_up_where_left_off
          ⟨0, "general", 0, tks, gen, c1.getD [], p1.getD (PVal.obj [])⟩).general_questions
          = (pickUpAux gen tks).2 := rfl
      rw [hgq, h2]
      show (pickUpAux (pickUpAux gen tks).2 tks).1 = (pickUpAux gen tks).1
      rw [pickUpAux_idem gen tks hnd2]

/-- Claim C9: loading the engine twice in a row — the second time from the
documents as the first scan left them, with no `submit_answer` between —
derives the same position both times: the same tier index, phase `general`,
question index 0; the `in_process` status the first scan wrote does not move
the tier the second scan selects. -/
theorem C9_resumption_idempotent (genDoc catDoc : Option QSet)
    (profDoc : Option PVal)
    (hnd : ((genDoc.getD []).map Prod.fst).Nodup) :
    (load_data (some (load_data genDoc catDoc profDoc).general_questions)
        (some (load_data genDoc catDoc profDoc).category_questions)
        (some (load_data genDoc catDoc profDoc).profile_structure)).current_tier_idx
      = (load_data genDoc catDoc profDoc).current_tier_idx ∧
    (load_data genDoc catDoc profDoc).current_phase = "general" ∧
    (load_data (some (load_data genDoc catDoc profDoc).general_questions)
        (some (load_data genDoc catDoc profDoc).category_questions)
        (some (load_data genDoc catDoc profDoc).profile_structure)).current_phase
      = "general" ∧
    (load_data genDoc catDoc profDoc).current_q_idx = 0 ∧
    (load_data (some (load_data genDoc catDoc profDoc).general_questions)
        (some (load_data genDoc catDoc profDoc).category_questions)
        (some (load_data genDoc catDoc profDoc).profile_structure)).current_q_idx
      = 0 := by
  have hsplit : load_data genDoc catDoc profDoc
      = load_data (some (genDoc.getD [])) catDoc profDoc := by
    cases genDoc <;> rfl
  refine ⟨?_, (load_data_phase _ _ _).1, (load_data_phase _ _ _).1,
    (load_data_phase _ _ _).2, (load_data_phase _ _ _).2⟩
  rw [hsplit]
  exact load_load_idx (genDoc.getD []) catDoc profDoc _ _ hnd

/-- Witness for C9 at a concrete input: the spec §8 documents. -/
theorem C9_witness :
    (load_data (some (load_data (some exGen) (some []) (some (PVal.obj []))).general_questions)
        (some (load_data (some exGen) (some []) (some (PVal.obj []))).category_questions)
        (some (load_data (some exGen) (some []) (some (PVal.obj []))).profile_structure)).current_tier_idx
      = (load_data (some exGen) (some []) (some (PVal.obj []))).current_tier_idx ∧
    (load_data (some exGen) (some []) (some (PVal.obj []))).current_phase = "general" :=
  ⟨(C9_resumption_idempotent (some exGen) (some []) (some (PVal.obj []))
      (by decide)).1,
   (C9_resumption_idempotent (some exGen) (some []) (some (PVal.obj []))
      (by decide)).2.1⟩

/- ===================== engine invariant lemmas ===================== -/

theorem alGet_isSome_of_keys_eq (g1 g2 : QSet) (k : String)
    (h : g2.map Prod.fst = g1.map Prod.fst) (hk : (alGet g1 k).isSome) :
    (alGet g2 k).isSome := by
  rw [alGet_isSome_iff_mem] at hk ⊢
  rw [h]
  exact hk

theorem markPhase_general_keys (b : Agent) (tk text : String) :
    ((markPhase b tk text).general_questions).map Prod.fst
      = b.general_questions.map Prod.fst := by
  unfold markPhase
  split
  · exact markAnswered_keys _ _ _
  · rfl

theorem complete_general_keys (b : Agent) :
    ((complete_current_tier b).general_questions).map Prod.fst
      = b.general_questions.map Prod.fst := by
  unfold complete_current_tier
  split
  · split
    · rfl
    · exact setStatus_keys _ _ _
  · rfl

theorem advanceTier_general_keys (b : Agent) :
    ((advance_to_next_tier b).general_questions).map Prod.fst
      = b.general_questions.map Prod.fst := by
  unfold advance_to_next_tier
  dsimp only
  split
  · split
    · split
      · exact setStatus_keys _ _ _
      · rfl
    · rfl
  · rfl

theorem complete_status_gen_cases (b : Agent) (k : String) :
    tierStatus (complete_current_tier b).general_questions k
        = tierStatus b.general_questions k ∨
    tierStatus (complete_current_tier b).general_questions k = "completed" := by
  unfold complete_current_tier
  split
  · split
    · exact Or.inl rfl
    · dsimp only
      exact tierStatus_setStatus_cases _ _ _ _
  · exact Or.inl rfl

theorem get_current_tier_key_congr (x y : Agent)
    (ht : x.tier_keys = y.tier_keys)
    (hi : x.current_tier_idx = y.current_tier_idx) :
    get_current_tier_key x = get_current_tier_key y := by
  unfold get_current_tier_key
  rw [ht, hi]

theorem pickUpAux_scan_completed (gen : QSet) (keys : List String)
    (hnd : keys.Nodup) :
    ∀ j k2, j < (pickUpAux gen keys).1 → keys[j]? = some k2 →
      tierStatus (pickUpAux gen keys).2 k2 = "completed" := by
  induction keys with
  | nil =>
    intro j k2 hlt hk
    simp at hk
  | cons k rest ih =>
    have hk_rest : k ∉ rest := (List.nodup_cons.mp hnd).1
    have hnd2 : rest.Nodup := (List.nodup_cons.mp hnd).2
    intro j k2 hlt hk
    by_cases hst : tierStatus gen k = "completed"
    · have hc : pickUpAux gen (k :: rest)
          = ((pickUpAux gen rest).1 + 1, (pickUpAux gen rest).2) := by
        rw [pickUpAux_cons, if_pos hst]
      rw [hc] at hlt ⊢
      dsimp only at hlt ⊢
      cases j with
      | zero =>
        have hk2 : k2 = k := by
          rw [List.getElem?_cons_zero] at hk
          exact (Option.some.inj hk).symm
        subst hk2
        rw [pickUpAux_status_not_mem gen rest k2 hk_rest]
        exact hst
      | succ n =>
        rw [List.getElem?_cons_succ] at hk
        exact ih hnd2 n k2 (by omega) hk
    · have hc : pickUpAux gen (k :: rest)
          = (0, if tierStatus gen k ≠ "in_process"
              then setStatus gen k "in_process" else gen) := by
        rw [pickUpAux_cons, if_neg hst]
      rw [hc] at hlt
      dsimp only at hlt
      omega

theorem load_EngineInv (genDoc catDoc : Option QSet) (profDoc : Option PVal)
    (hnd : ((genDoc.getD []).map Prod.fst).Nodup) :
    EngineInv (load_data genDoc catDoc profDoc) := by
  have hsplit : load_data genDoc catDoc profDoc
      = load_data (some (genDoc.getD [])) catDoc profDoc := by
    cases genDoc <;> rfl
  rw [hsplit]
  generalize hgen : genDoc.getD [] = gen
  rw [hgen] at hnd
  by_cases hge : gen.isEmpty
  · have hg0 : gen = [] := by simpa [List.isEmpty_iff] using hge
    subst hg0
    have htk : (load_data (some []) catDoc profDoc).tier_keys = [] := rfl
    refine ⟨?_, ?_, ?_, ?_⟩
    · rw [htk]
      exact List.nodup_nil
    · intro k hk
      rw [htk] at hk
      exact absurd hk (List.not_mem_nil k)
    · intro k hk
      rw [htk] at hk
      exact absurd hk (List.not_mem_nil k)
    · intro j k2 _ hk
      rw [htk] at hk
      simp at hk
  · cases hdk : deriveTierKeys gen with
    | none =>
      have h1 : load_data (some gen) catDoc profDoc
          = pick_up_where_left_off emptyAgent := by
        unfold load_data
        simp only [Option.getD_some]
        rw [if_neg hge, hdk]
      rw [h1]
      have htk : (pick_up_where_left_off emptyAgent).tier_keys = [] := rfl
      refine ⟨?_, ?_, ?_, ?_⟩
      · rw [htk]
        exact List.nodup_nil
      · intro k hk
        rw [htk] at hk
        exact absurd hk (List.not_mem_nil k)
      · intro k hk
        rw [htk] at hk
        exact absurd hk (List.not_mem_nil k)
      · intro j k2 _ hk
        rw [htk] at hk
        simp at hk
    | some tks =>
      have hks : tks
          = sortByRank ((gen.map Prod.fst).filter (fun k => pyStartsWithTier k)) := by
        unfold deriveTierKeys at hdk
        dsimp only at hdk
        split at hdk
        · simp only [Option.some.injEq] at hdk
          exact hdk.symm
        · cases hdk
      have hmem : ∀ k ∈ tks, k ∈ (gen.map Prod.fst).filter (fun k => pyStartsWithTier k) := by
        intro k hk
        rw [hks] at hk
        exact (sortByRank_perm _).mem_iff.mp hk
      have hnd2 : tks.Nodup := by
        rw [hks]
        exact ((sortByRank_perm _).nodup_iff).mpr (hnd.filter _)
      have h1 : load_data (some gen) catDoc profDoc = pick_up_where_left_off
          ⟨0, "general", 0, tks, gen, catDoc.getD [], profDoc.getD (PVal.obj [])⟩ := by
        unfold load_data
        simp only [Option.getD_some]
        rw [if_neg hge, hdk]
      rw [h1]
      have hkeys : ((pickUpAux gen tks).2).map Prod.fst = gen.map Prod.fst :=
        pickUpAux_keys gen tks
      refine ⟨hnd2, ?_, ?_, ?_⟩
      · intro k hk
        have hk2 := hmem k hk
        rw [List.mem_filter] at hk2
        refine alGet_isSome_of_keys_eq gen _ k hkeys ?_
        rw [alGet_isSome_iff_mem]
        exact hk2.1
      · intro k hk hke
        have hk2 := hmem k hk
        rw [List.mem_filter] at hk2
        have := hk2.2
        rw [hke] at this
        exact absurd this (by decide)
      · intro j k2 hjlt hk
        exact pickUpAux_scan_completed gen tks hnd2 j k2 hjlt hk

theorem advanceTier_EngineInv (c : Agent) (h : EngineInv c)
    (hcur : ∀ k2, get_current_tier_key c = some k2 →
      tierStatus c.general_questions k2 = "completed") :
    EngineInv (advance_to_next_tier c) := by
  obtain ⟨hnd, hkeys, hne, hinv⟩ := h
  have htk : (advance_to_next_tier c).tier_keys = c.tier_keys :=
    (advanceTier_fields c).1
  have hgk := advanceTier_general_keys c
  refine ⟨?_, ?_, ?_, ?_⟩
  · rw [htk]
    exact hnd
  · intro k hk
    rw [htk] at hk
    exact alGet_isSome_of_keys_eq c.general_questions _ k hgk (hkeys k hk)
  · intro k hk
    rw [htk] at hk
    exact hne k hk
  · intro j k2 hjlt hk
    rw [htk] at hk
    by_cases hlt : c.current_tier_idx + 1 < c.tier_keys.length
    · obtain ⟨hidx, -, -, hstat⟩ := advanceTier_result c hlt
      rw [hidx] at hjlt
      have hjlen : j < c.tier_keys.length := by
        by_contra hge
        rw [List.getElem?_eq_none (by omega)] at hk
        cases hk
      have hne2 : c.tier_keys[c.current_tier_idx + 1]? ≠ some k2 := by
        intro hk2
        have := List.getElem?_inj hjlen hnd (hk.trans hk2.symm)
        omega
      rw [hstat k2 hne2]
      by_cases hj2 : j < c.current_tier_idx
      · exact hinv j k2 hj2 hk
      · have hje : j = c.current_tier_idx := by omega
        subst hje
        exact hcur k2 hk
    · have hend : advance_to_next_tier c
          = {c with current_tier_idx := c.tier_keys.length} := by
        unfold advance_to_next_tier
        rw [if_neg hlt]
      rw [hend] at hjlt ⊢
      dsimp only at hjlt ⊢
      by_cases hj2 : j < c.current_tier_idx
      · exact hinv j k2 hj2 hk
      · have hje : j = c.current_tier_idx := by omega
        subst hje
        exact hcur k2 hk

theorem advance_EngineInv (b : Agent) (h : EngineInv b) :
    EngineInv (advance_to_next b) := by
  obtain ⟨hnd, hkeys, hne, hinv⟩ := h
  have htk := (advance_fields b).1
  rcases advance_cases b with ⟨hg, hc, hi⟩ | ⟨b1, hb1g, hb1c, hb1i, hb1t, heq⟩
  · refine ⟨?_, ?_, ?_, ?_⟩
    · rw [htk]
      exact hnd
    · intro k hk
      rw [htk] at hk
      rw [hg]
      exact hkeys k hk
    · intro k hk
      rw [htk] at hk
      exact hne k hk
    · intro j k2 hjlt hk
      rw [htk] at hk
      rw [hi] at hjlt
      rw [hg]
      exact hinv j k2 hjlt hk
  · rw [heq]
    have hci : (complete_current_tier b1).current_tier_idx = b.current_tier_idx := by
      rw [(complete_fields b1).1, hb1i]
    have hct : (complete_current_tier b1).tier_keys = b.tier_keys := by
      rw [(complete_fields b1).2.2.2.1, hb1t]
    have hcg : ((complete_current_tier b1).general_questions).map Prod.fst
        = b.general_questions.map Prod.fst := by
      rw [complete_general_keys b1, hb1g]
    apply advanceTier_EngineInv
    · refine ⟨?_, ?_, ?_, ?_⟩
      · rw [hct]
        exact hnd
      · intro k hk
        rw [hct] at hk
        exact alGet_isSome_of_keys_eq b.general_questions _ k hcg (hkeys k hk)
      · intro k hk
        rw [hct] at hk
        exact hne k hk
      · intro j k2 hjlt hk
        rw [hct] at hk
        rw [hci] at hjlt
        rcases complete_status_gen_cases b1 k2 with hcs | hcs
        · rw [hcs, hb1g]
          exact hinv j k2 hjlt hk
        · exact hcs
    · intro k2 hk2
      have hgc : get_current_tier_key (complete_current_tier b1)
          = get_current_tier_key b1 :=
        get_current_tier_key_congr _ _ (complete_fields b1).2.2.2.1 (complete_fields b1).1
      have hgb : get_current_tier_key b1 = get_current_tier_key b :=
        get_current_tier_key_congr _ _ hb1t hb1i
      rw [hgc, hgb] at hk2
      have hmem : k2 ∈ b.tier_keys := List.getElem?_mem hk2
      have hke : k2 ≠ "" := hne k2 hmem
      have hsome : (alGet b1.general_questions k2).isSome := by
        rw [hb1g]
        exact hkeys k2 hmem
      have hck : get_current_tier_key b1 = some k2 := by
        rw [hgb]
        exact hk2
      have hcomp : complete_current_tier b1 = {b1 with
          general_questions := setStatus b1.general_questions k2 "completed"
          category_questions := setStatus b1.category_questions k2 "completed"} := by
        simp only [complete_current_tier, hck]
        rw [if_neg hke]
      rw [hcomp]
      dsimp only
      exact tierStatus_setStatus_self _ _ _ hsome

theorem submit_EngineInv (b : Agent) (ans : String) (h : EngineInv b) :
    EngineInv (submit_answer b ans).2 := by
  rcases submit_cases b ans with hs | ⟨tk, text, fp, hs⟩
  · rw [hs]
    exact h
  · rw [hs]
    apply advance_EngineInv
    obtain ⟨hnd, hkeys, hne, hinv⟩ := h
    have ht : (update_profile_structure (markPhase b tk text) fp ans).tier_keys
        = b.tier_keys := by
      rw [(update_profile_fields _ _ _).2.2.2.1, (markPhase_fields _ _ _).2.2.2.1]
    have hi : (update_profile_structure (markPhase b tk text) fp ans).current_tier_idx
        = b.current_tier_idx := by
      rw [(update_profile_fields _ _ _).1, (markPhase_fields _ _ _).1]
    have hgk : ((update_profile_structure (markPhase b tk text) fp ans).general_questions).map
        Prod.fst = b.general_questions.map Prod.fst := by
      rw [(update_profile_fields _ _ _).2.2.2.2.1]
      exact markPhase_general_keys b tk text
    refine ⟨?_, ?_, ?_, ?_⟩
    · rw [ht]
      exact hnd
    · intro k hk
      rw [ht] at hk
      exact alGet_isSome_of_keys_eq b.general_questions _ k hgk (hkeys k hk)
    · intro k hk
      rw [ht] at hk
      exact hne k hk
    · intro j k2 hjlt hk
      rw [ht] at hk
      rw [hi] at hjlt
      rw [(submit_intermediate_status b tk text fp ans k2).1]
      exact hinv j k2 hjlt hk

theorem reachable_EngineInv (a : Agent) (h : Reachable a) : EngineInv a := by
  induction h with
  | load genDoc catDoc profDoc hnd => exact load_EngineInv genDoc catDoc profDoc hnd
  | step b ans hb ih => exact submit_EngineInv b ans ih

/-- Claim C5: in every reachable engine state that reports the tier at index
`t+1` of `tier_keys` as current, the tier at index `t` has general-set status
`completed`. -/
theorem C5_no_skip_without_completion (a : Agent) (t : Nat) (tk tkc : String)
    (hr : Reachable a)
    (hidx : a.current_tier_idx = t + 1)
    (hcur : get_current_tier_key a = some tkc)
    (hk : a.tier_keys[t]? = some tk) :
    tierStatus a.general_questions tk = "completed" :=
  (reachable_EngineInv a hr).2.2.2 t tk (by omega) hk

/-- Witness for C5 at a concrete input: after one answer in the spec §8 state
the engine reports `tier2` (index 1) as current, and `tier1` is completed. -/
theorem C5_witness :
    tierStatus (submit_answer exS0 "Alice").2.general_questions "tier1"
      = "completed" :=
  C5_no_skip_without_completion (submit_answer exS0 "Alice").2 0 "tier1" "tier2"
    (Reachable.step exS0 "Alice"
      (Reachable.load (some exGen) (some []) (some (PVal.obj [])) (by decide)))
    rfl rfl rfl
